import Mathlib

/-!
Shallow embedding of the sales-bonus repository (two source variants of the
same program: `src/main.js`, suffix `M` below, and the unnamed file
`src/unnamed/part_000`, suffix `P` below).

JavaScript numbers are modelled as exact rationals (`ℚ`).  `toFixed(2)`
followed by the unary `+` of the source is modelled by `toFixed2R`
(round half away from zero at two decimals, returned as a rational);
`toFixed(2)` used as a string (part_000 concatenates it onto the running
revenue) is modelled by `toFixed2S`.  A JavaScript value that may be a
number or a string (the part_000 revenue accumulator) is modelled by
`RevAcc`; a number that may be `NaN` (main.js adds the possibly missing
`total_amount` field) is modelled by `Option ℚ` with `none` for `NaN`.
-/

set_option allowUnsafeReducibility true in
attribute [semireducible] Rat.add Rat.sub Rat.mul Rat.inv Rat.ofScientific

deriving instance DecidableEq for Except

namespace SalesBonus

/-- Floor of a nonnegative rational, computed by natural division. -/
def natFloorQ (q : ℚ) : ℕ := q.num.toNat / q.den

/-- Round half away from zero to an integer (the rounding used by `toFixed`). -/
def roundHalfAway (q : ℚ) : ℤ :=
  if q < 0 then -(natFloorQ (1/2 - q) : ℤ) else (natFloorQ (q + 1/2) : ℤ)

/-- Numeric effect of the source pattern `+x.toFixed(2)`: round to two decimals. -/
def toFixed2R (q : ℚ) : ℚ := (roundHalfAway (q * 100) : ℚ) / 100

/-- Left-pad a two-digit fractional part with a zero. -/
def pad2 (n : ℕ) : String := if n < 10 then "0" ++ toString n else toString n

/-- String produced by `x.toFixed(2)`. -/
def toFixed2S (q : ℚ) : String :=
  let r := roundHalfAway (q * 100)
  (if r < 0 then "-" else "") ++ toString (r.natAbs / 100) ++ "." ++ pad2 (r.natAbs % 100)

/-- JavaScript number-to-string coercion, used when a number is concatenated
with a string.  Inside `analyzeSalesData` it is only ever applied to the
integer `0` (the initial revenue accumulator), which prints as `"0"`. -/
def jsNumToString (q : ℚ) : String :=
  if q.den = 1 then
    (if q.num < 0 then "-" ++ toString q.num.natAbs else toString q.num.natAbs)
  else toFixed2S q

/-- Lookup in the index built by `Object.fromEntries(list.map(x => [key x, x]))`:
for a duplicated key the later entry overwrites the earlier one. -/
def objLookup {α : Type} (key : α → String) : List α → String → Option α
  | [], _ => none
  | x :: xs, k =>
    match objLookup key xs k with
    | some y => some y
    | none => if key x = k then some x else none

/-- Replace the first element satisfying `p` by its image under `f`. -/
def updateFirstIf {α : Type} (p : α → Bool) (f : α → α) : List α → List α
  | [] => []
  | x :: xs => if p x then f x :: xs else x :: updateFirstIf p f xs

/-- Replace the last element satisfying `p` by its image under `f`.  This is
the effect of mutating `index[k]` when `index = Object.fromEntries(...)`
maps the key to the last object carrying it. -/
def updateLastIf {α : Type} (p : α → Bool) (f : α → α) (l : List α) : List α :=
  (updateFirstIf p f l.reverse).reverse

/-- Stable insertion of `x` into a list, before the first element whose key is
not larger: the placement produced by a stable sort with the JavaScript
comparator `(a, b) => key b - key a` (descending by key). -/
def insertDescBy {α : Type} (key : α → ℚ) (x : α) : List α → List α
  | [] => [x]
  | y :: ys => if key y ≤ key x then x :: y :: ys else y :: insertDescBy key x ys

/-- Stable sort, descending by key: model of `Array.prototype.sort` (stable per
the ECMAScript specification) with comparator `(a, b) => key b - key a`. -/
def sortDescBy {α : Type} (key : α → ℚ) : List α → List α
  | [] => []
  | x :: xs => insertDescBy key x (sortDescBy key xs)

/-- Read a digit string as a natural number (no sign, digits only). -/
def digitsToNatAux : List Char → ℕ → Option ℕ
  | [], acc => some acc
  | c :: cs, acc =>
    if 48 ≤ c.toNat ∧ c.toNat ≤ 57 then digitsToNatAux cs (acc * 10 + (c.toNat - 48))
    else none

/-- The ECMAScript array-index test for a property key: the key is the
canonical decimal numeral of an integer below 2^32 - 1 ("2", "10", but not
"00", "P1" or "4294967295"). -/
def keyAsIndex (s : String) : Option ℕ :=
  match digitsToNatAux s.data 0 with
  | none => none
  | some n => if toString n = s ∧ n < 4294967295 then some n else none

/-- Stable insertion ascending by a natural key. -/
def insertAscBy {α : Type} (key : α → ℕ) (x : α) : List α → List α
  | [] => [x]
  | y :: ys => if key x < key y then x :: y :: ys else y :: insertAscBy key x ys

/-- Stable sort ascending by a natural key. -/
def sortAscBy {α : Type} (key : α → ℕ) : List α → List α
  | [] => []
  | x :: xs => insertAscBy key x (sortAscBy key xs)

/-- The enumeration order of `Object.entries` (ECMAScript
OrdinaryOwnPropertyKeys): entries whose key is an array index come first, in
ascending numeric order, followed by the remaining entries in insertion
order. -/
def jsEntries {α : Type} (l : List (String × α)) : List (String × α) :=
  sortAscBy (fun e => (keyAsIndex e.1).getD 0)
      (l.filter (fun e => (keyAsIndex e.1).isSome)) ++
    l.filter (fun e => !(keyAsIndex e.1).isSome)

/-! ### Input data model -/

structure Seller where
  id : String
  first_name : String
  last_name : String
deriving DecidableEq

structure Product where
  sku : String
  purchase_price : ℚ
  name : String
deriving DecidableEq

structure LineItem where
  sku : String
  sale_price : ℚ
  discount : ℚ
  quantity : ℚ
deriving DecidableEq

/-- A purchase record; `total_amount` is `none` when the field is absent
(reading it then yields `undefined`, and `x += undefined` yields `NaN`). -/
structure PurchaseRecord where
  seller_id : String
  total_amount : Option ℚ := none
  items : List LineItem
deriving DecidableEq

/-- The top-level dataset; a field is `none` when it is missing or not an
array (both fail the same `!x || !Array.isArray(x)` validation test). -/
structure RawDataSet where
  sellers : Option (List Seller)
  products : Option (List Product)
  purchase_records : Option (List PurchaseRecord)

/-- NaN-propagating addition of possibly-NaN numbers (`none` is `NaN`). -/
def optAdd : Option ℚ → Option ℚ → Option ℚ
  | some a, some b => some (a + b)
  | _, _ => none

/-- Revenue strategy from both variants: `sale_price * quantity * (1 - discount/100)`. -/
def calculateSimpleRevenue (purchase : LineItem) (_product : Product) : ℚ :=
  purchase.sale_price * purchase.quantity * (1 - purchase.discount / 100)

/-! ### main.js variant (suffix `M`) -/

/-- Per-SKU aggregate in a seller's `products_sold` object (main.js shape,
with the product name). -/
structure ProdAggM where
  quantity : ℚ
  revenue : ℚ
  profit : ℚ
  name : String
deriving DecidableEq

/-- Seller accumulator of main.js.  `revenue` is `Option ℚ` because main.js
adds `record.total_amount`, which may be missing (`NaN`, modelled `none`). -/
structure StatM where
  seller_id : String
  name : String
  revenue : Option ℚ
  profit : ℚ
  sales_count : ℕ
  products_sold : List (String × ProdAggM)
deriving DecidableEq

def mkStatM (s : Seller) : StatM :=
  { seller_id := s.id
    name := s.first_name ++ " " ++ s.last_name
    revenue := some 0
    profit := 0
    sales_count := 0
    products_sold := [] }

/-- `products_sold` update: create the entry (seeded with the product name) on
first encounter, then add quantity, revenue and profit. -/
def updateAggM (l : List (String × ProdAggM)) (sku pname : String)
    (qty rev prof : ℚ) : List (String × ProdAggM) :=
  if l.any (fun e => e.1 = sku) then
    l.map (fun e =>
      if e.1 = sku then
        (e.1, { quantity := e.2.quantity + qty, revenue := e.2.revenue + rev,
                profit := e.2.profit + prof, name := e.2.name })
      else e)
  else l ++ [(sku, { quantity := qty, revenue := rev, profit := prof, name := pname })]

/-- Body of the inner `record.items.forEach` loop of main.js. -/
def processItemM (calcRev : LineItem → Product → ℚ) (products : List Product)
    (s : StatM) (item : LineItem) : StatM :=
  match objLookup Product.sku products item.sku with
  | none => s
  | some product =>
    let cost := product.purchase_price * item.quantity
    let revenue := calcRev item product
    let profit := revenue - cost
    { s with
      profit := s.profit + profit
      products_sold := updateAggM s.products_sold item.sku product.name
        item.quantity revenue profit }

/-- Effect of one matched purchase record on its seller accumulator (main.js):
bump `sales_count`, add the record's `total_amount` to revenue, then fold
the line items. -/
def recordBodyM (calcRev : LineItem → Product → ℚ) (products : List Product)
    (r : PurchaseRecord) (s : StatM) : StatM :=
  let s1 : StatM :=
    { s with sales_count := s.sales_count + 1, revenue := optAdd s.revenue r.total_amount }
  r.items.foldl (processItemM calcRev products) s1

/-- Body of the `data.purchase_records.forEach` loop of main.js: look the
seller up in `sellerIndex` (last stat wins on duplicate ids) and mutate it;
skip the record when absent. -/
def processRecordM (calcRev : LineItem → Product → ℚ) (products : List Product)
    (stats : List StatM) (r : PurchaseRecord) : List StatM :=
  updateLastIf (fun s => s.seller_id = r.seller_id) (recordBodyM calcRev products r) stats

/-- The whole aggregation fold of main.js. -/
def aggregateM (calcRev : LineItem → Product → ℚ) (sellers : List Seller)
    (products : List Product) (records : List PurchaseRecord) : List StatM :=
  records.foldl (processRecordM calcRev products) (sellers.map mkStatM)

structure TopProdM where
  sku : String
  name : String
  quantity : ℚ
  revenue : ℚ
  profit : ℚ
deriving DecidableEq

/-- Ranked seller of main.js, after the bonus / top-products pass. -/
structure RankedM where
  seller_id : String
  name : String
  revenue : Option ℚ
  profit : ℚ
  sales_count : ℕ
  bonus : ℚ
  bonus_rate : ℚ
  rank : ℕ
  top_products : List TopProdM
deriving DecidableEq

/-- Top-products construction of main.js: project `Object.entries` (in its
JavaScript enumeration order, `jsEntries`), sort by quantity descending
(stable), keep the first ten. -/
def topProductsM (l : List (String × ProdAggM)) : List TopProdM :=
  ((sortDescBy (fun t : TopProdM => t.quantity)
    ((jsEntries l).map (fun e =>
      { sku := e.1, name := e.2.name, quantity := e.2.quantity,
        revenue := toFixed2R e.2.revenue, profit := toFixed2R e.2.profit })))).take 10

/-- One step of the bonus-assignment `map` of main.js: the strategy returns a
rate, the caller multiplies it by the profit. -/
def rankOneM (calcBonus : ℕ → ℕ → StatM → ℚ) (total i : ℕ) (s : StatM) : RankedM :=
  let bonusRate := calcBonus i total s
  let bonusAmount := s.profit * bonusRate
  { seller_id := s.seller_id, name := s.name, revenue := s.revenue,
    profit := s.profit, sales_count := s.sales_count,
    bonus := toFixed2R bonusAmount, bonus_rate := bonusRate, rank := i + 1,
    top_products := topProductsM s.products_sold }

/-- Index-passing model of `sortedSellers.map((seller, index) => ...)`. -/
def rankSellersAuxM (calcBonus : ℕ → ℕ → StatM → ℚ) (total : ℕ) :
    ℕ → List StatM → List RankedM
  | _, [] => []
  | i, s :: rest => rankOneM calcBonus total i s :: rankSellersAuxM calcBonus total (i + 1) rest

def rankSellersM (calcBonus : ℕ → ℕ → StatM → ℚ) (sorted : List StatM) : List RankedM :=
  rankSellersAuxM calcBonus sorted.length 0 sorted

structure TopProdOut where
  sku : String
  quantity : ℚ
deriving DecidableEq

/-- Final report record (shape shared by the two variants). -/
structure Report where
  seller_id : String
  name : String
  revenue : Option ℚ
  profit : ℚ
  sales_count : ℕ
  top_products : List TopProdOut
  bonus : ℚ
deriving DecidableEq

/-- Final projection of main.js. -/
def projectM (r : RankedM) : Report :=
  { seller_id := r.seller_id, name := r.name,
    revenue := r.revenue.map toFixed2R, profit := toFixed2R r.profit,
    sales_count := r.sales_count,
    top_products := r.top_products.map (fun t => { sku := t.sku, quantity := t.quantity }),
    bonus := r.bonus }

/-- The post-validation pipeline of main.js. -/
def analyzeCoreM (calcRev : LineItem → Product → ℚ) (calcBonus : ℕ → ℕ → StatM → ℚ)
    (sellers : List Seller) (products : List Product)
    (records : List PurchaseRecord) : List Report :=
  (rankSellersM calcBonus
    (sortDescBy StatM.profit (aggregateM calcRev sellers products records))).map projectM

/-- Injected strategies of main.js; a `none` field is a missing or
non-function option. -/
structure OptionsM where
  calculateRevenue : Option (LineItem → Product → ℚ)
  calculateBonusByProfit : Option (ℕ → ℕ → StatM → ℚ)

/-- Errors thrown by either variant, one constructor per distinct `throw`
site, plus the `TypeError` raised by calling `toFixed` on a string. -/
inductive JsErr
  | invalidData
  | invalidRecords
  | invalidProducts
  | invalidSellers
  | noOptions
  | noCalcRevenue
  | noCalcBonus
  | typeError
deriving DecidableEq

/-- `analyzeSalesData` of main.js: validation in source order, then the
aggregation / ranking / projection pipeline. -/
def analyzeSalesDataM (data : Option RawDataSet) (options : Option OptionsM) :
    Except JsErr (List Report) :=
  match data with
  | none => .error .invalidData
  | some d =>
    match d.purchase_records with
    | none => .error .invalidRecords
    | some records =>
      if records.length = 0 then .error .invalidRecords
      else
        match d.products with
        | none => .error .invalidProducts
        | some products =>
          if products.length = 0 then .error .invalidProducts
          else
            match d.sellers with
            | none => .error .invalidSellers
            | some sellers =>
              if sellers.length = 0 then .error .invalidSellers
              else
                match options with
                | none => .error .noOptions
                | some opts =>
                  match opts.calculateRevenue with
                  | none => .error .noCalcRevenue
                  | some calcRev =>
                    match opts.calculateBonusByProfit with
                    | none => .error .noCalcBonus
                    | some calcBonus =>
                      .ok (analyzeCoreM calcRev calcBonus sellers products records)

/-- Bonus strategy of main.js.  The source multiplies every tier rate by
1000 (`0.15*1000`, ...), contradicting its own doc comment, which promises a
coefficient between 0 and 0.15.  The comparison `index === total - 1` is on
JavaScript numbers, hence over `ℤ`. -/
def calculateBonusByProfitM (index total : ℕ) (_seller : StatM) : ℚ :=
  if index = 0 then 0.15 * 1000
  else if index = 1 ∨ index = 2 then 0.1 * 1000
  else if (index : ℤ) = (total : ℤ) - 1 then 0.0 * 1000
  else 0.05 * 1000

/-! ### part_000 variant (suffix `P`) -/

/-- Revenue accumulator of part_000: a JavaScript number or, after
`seller.revenue += revenue.toFixed(2)`, a string. -/
inductive RevAcc
  | num (q : ℚ)
  | str (s : String)
deriving DecidableEq

/-- JavaScript `+` with a string right operand: the left operand is coerced
to a string and the two are concatenated. -/
def revAccAddStr : RevAcc → String → RevAcc
  | .num q, s => .str (jsNumToString q ++ s)
  | .str t, s => .str (t ++ s)

/-- Per-SKU aggregate of part_000 (no product name). -/
structure ProdAggP where
  quantity : ℚ
  revenue : ℚ
  profit : ℚ
deriving DecidableEq

/-- Seller accumulator of part_000. -/
structure StatP where
  seller_id : String
  name : String
  revenue : RevAcc
  profit : ℚ
  sales_count : ℕ
  products_sold : List (String × ProdAggP)
deriving DecidableEq

def mkStatP (s : Seller) : StatP :=
  { seller_id := s.id
    name := s.first_name ++ " " ++ s.last_name
    revenue := .num 0
    profit := 0
    sales_count := 0
    products_sold := [] }

def updateAggP (l : List (String × ProdAggP)) (sku : String)
    (qty rev prof : ℚ) : List (String × ProdAggP) :=
  if l.any (fun e => e.1 = sku) then
    l.map (fun e =>
      if e.1 = sku then
        (e.1, { quantity := e.2.quantity + qty, revenue := e.2.revenue + rev,
                profit := e.2.profit + prof })
      else e)
  else l ++ [(sku, { quantity := qty, revenue := rev, profit := prof })]

/-- Body of the inner item loop of part_000: on a matched SKU it adds the
profit and then executes `seller.revenue += revenue.toFixed(2)`, turning the
revenue accumulator into a string. -/
def processItemP (calcRev : LineItem → Product → ℚ) (products : List Product)
    (s : StatP) (item : LineItem) : StatP :=
  match objLookup Product.sku products item.sku with
  | none => s
  | some product =>
    let cost := product.purchase_price * item.quantity
    let revenue := calcRev item product
    let profit := revenue - cost
    { s with
      profit := s.profit + profit
      revenue := revAccAddStr s.revenue (toFixed2S revenue)
      products_sold := updateAggP s.products_sold item.sku item.quantity revenue profit }

/-- Effect of one matched purchase record in part_000 (no `total_amount`
accumulation; revenue is touched per line item instead). -/
def recordBodyP (calcRev : LineItem → Product → ℚ) (products : List Product)
    (r : PurchaseRecord) (s : StatP) : StatP :=
  let s1 : StatP := { s with sales_count := s.sales_count + 1 }
  r.items.foldl (processItemP calcRev products) s1

def processRecordP (calcRev : LineItem → Product → ℚ) (products : List Product)
    (stats : List StatP) (r : PurchaseRecord) : List StatP :=
  updateLastIf (fun s => s.seller_id = r.seller_id) (recordBodyP calcRev products r) stats

def aggregateP (calcRev : LineItem → Product → ℚ) (sellers : List Seller)
    (products : List Product) (records : List PurchaseRecord) : List StatP :=
  records.foldl (processRecordP calcRev products) (sellers.map mkStatP)

/-- Ranked seller of part_000: the strategy already returns the bonus amount,
and `top_products` is projected to `{sku, quantity}` immediately. -/
structure RankedP where
  seller_id : String
  name : String
  revenue : RevAcc
  profit : ℚ
  sales_count : ℕ
  bonus : ℚ
  top_products : List TopProdOut
deriving DecidableEq

def rankOneP (calcBonus : ℕ → ℕ → StatP → ℚ) (total i : ℕ) (s : StatP) : RankedP :=
  let bonusAmount := calcBonus i total s
  { seller_id := s.seller_id, name := s.name, revenue := s.revenue,
    profit := s.profit, sales_count := s.sales_count,
    bonus := toFixed2R bonusAmount,
    top_products :=
      ((sortDescBy (fun t : TopProdOut => t.quantity)
        ((jsEntries s.products_sold).map
          (fun e => { sku := e.1, quantity := e.2.quantity })))).take 10 }

def rankSellersAuxP (calcBonus : ℕ → ℕ → StatP → ℚ) (total : ℕ) :
    ℕ → List StatP → List RankedP
  | _, [] => []
  | i, s :: rest => rankOneP calcBonus total i s :: rankSellersAuxP calcBonus total (i + 1) rest

def rankSellersP (calcBonus : ℕ → ℕ → StatP → ℚ) (sorted : List StatP) : List RankedP :=
  rankSellersAuxP calcBonus sorted.length 0 sorted

/-- Final projection of one part_000 record: `+seller.revenue.toFixed(2)`
succeeds on a number and raises a `TypeError` on a string (strings have no
`toFixed` method). -/
def projectP (r : RankedP) : Except JsErr Report :=
  match r.revenue with
  | .str _ => .error .typeError
  | .num q =>
    .ok { seller_id := r.seller_id, name := r.name,
          revenue := some (toFixed2R q), profit := toFixed2R r.profit,
          sales_count := r.sales_count,
          top_products := r.top_products.map (fun t => { sku := t.sku, quantity := t.quantity }),
          bonus := r.bonus }

/-- `Array.prototype.map` whose body may throw: the first exception aborts
the whole call. -/
def mapExcept {α β : Type} (f : α → Except JsErr β) : List α → Except JsErr (List β)
  | [] => .ok []
  | x :: xs =>
    match f x with
    | .error e => .error e
    | .ok y =>
      match mapExcept f xs with
      | .error e => .error e
      | .ok ys => .ok (y :: ys)

/-- The post-validation pipeline of part_000. -/
def analyzeCoreP (calcRev : LineItem → Product → ℚ) (calcBonus : ℕ → ℕ → StatP → ℚ)
    (sellers : List Seller) (products : List Product)
    (records : List PurchaseRecord) : Except JsErr (List Report) :=
  mapExcept projectP
    (rankSellersP calcBonus
      (sortDescBy StatP.profit (aggregateP calcRev sellers products records)))

/-- Injected strategies of part_000 (the bonus option is named
`calculateBonus` in this variant). -/
structure OptionsP where
  calculateRevenue : Option (LineItem → Product → ℚ)
  calculateBonus : Option (ℕ → ℕ → StatP → ℚ)

/-- `analyzeSalesData` of part_000: the same validation chain as main.js,
then the part_000 pipeline, which may raise a `TypeError` at projection. -/
def analyzeSalesDataP (data : Option RawDataSet) (options : Option OptionsP) :
    Except JsErr (List Report) :=
  match data with
  | none => .error .invalidData
  | some d =>
    match d.purchase_records with
    | none => .error .invalidRecords
    | some records =>
      if records.length = 0 then .error .invalidRecords
      else
        match d.products with
        | none => .error .invalidProducts
        | some products =>
          if products.length = 0 then .error .invalidProducts
          else
            match d.sellers with
            | none => .error .invalidSellers
            | some sellers =>
              if sellers.length = 0 then .error .invalidSellers
              else
                match options with
                | none => .error .noOptions
                | some opts =>
                  match opts.calculateRevenue with
                  | none => .error .noCalcRevenue
                  | some calcRev =>
                    match opts.calculateBonus with
                    | none => .error .noCalcBonus
                    | some calcBonus =>
                      analyzeCoreP calcRev calcBonus sellers products records

/-- Bonus strategy of part_000: returns `seller.profit * rate` (the amount,
not the rate), with branch order exactly as in the source. -/
def calculateBonusByProfitP (index total : ℕ) (seller : StatP) : ℚ :=
  if index = 0 then seller.profit * 0.15
  else if index = 1 ∨ index = 2 then seller.profit * 0.1
  else if (index : ℤ) = (total : ℤ) - 1 then seller.profit * 0.0
  else seller.profit * 0.05

/-! ### Concrete inputs used by the claim theorems -/

/-- The seller of the worked example in the specification. -/
def exSeller : Seller := { id := "S1", first_name := "A", last_name := "B" }

/-- The product of the worked example in the specification. -/
def exProduct : Product := { sku := "P1", purchase_price := 10, name := "Widget" }

/-- The line item of the worked example: sale price 20, no discount, quantity 2. -/
def exItem : LineItem := { sku := "P1", sale_price := 20, discount := 0, quantity := 2 }

/-- The purchase record of the worked example (it has no `total_amount` field). -/
def exRecord : PurchaseRecord := { seller_id := "S1", items := [exItem] }

/-- The dataset of the worked example. -/
def exData : RawDataSet :=
  { sellers := some [exSeller], products := some [exProduct],
    purchase_records := some [exRecord] }

/-- The provided strategies, wired as main.js expects them. -/
def exOptionsM : OptionsM :=
  { calculateRevenue := some calculateSimpleRevenue,
    calculateBonusByProfit := some calculateBonusByProfitM }

/-- The provided strategies, wired as part_000 expects them. -/
def exOptionsP : OptionsP :=
  { calculateRevenue := some calculateSimpleRevenue,
    calculateBonus := some calculateBonusByProfitP }

/-- The worked-example record with a stated `total_amount` of 100, which
differs from the line-item revenue 40: distinguishes the two revenue
accumulation policies. -/
def exRecordTA : PurchaseRecord :=
  { seller_id := "S1", total_amount := some 100, items := [exItem] }

/-- The worked-example dataset with the stated `total_amount` of 100. -/
def exDataTA : RawDataSet :=
  { sellers := some [exSeller], products := some [exProduct],
    purchase_records := some [exRecordTA] }

/-! ### Generic list lemmas -/

theorem foldl_congr_step {α σ : Type} {f g : σ → α → σ} (h : ∀ s a, f s a = g s a) :
    ∀ (l : List α) (s : σ), l.foldl f s = l.foldl g s := by
  intro l
  induction l with
  | nil => intro s; rfl
  | cons a l ih => intro s; rw [List.foldl_cons, List.foldl_cons, h, ih]

theorem foldl_filter_inv {α σ : Type} {step : σ → α → σ} {p : α → Bool} (inv : σ → Prop)
    (hpres : ∀ s a, inv s → inv (step s a))
    (hskip : ∀ s a, inv s → p a = false → step s a = s) :
    ∀ (l : List α) (s : σ), inv s → l.foldl step s = (l.filter p).foldl step s := by
  intro l
  induction l with
  | nil => intro s _; rfl
  | cons a l ih =>
    intro s hs
    rw [List.foldl_cons, List.filter_cons]
    cases hp : p a with
    | true => simp only [if_pos]; rw [List.foldl_cons]; exact ih (step s a) (hpres s a hs)
    | false =>
      simp only [Bool.false_eq_true, if_neg, not_false_iff]
      rw [hskip s a hs hp]; exact ih s hs

theorem foldl_key_const {α σ κ : Type} (key : σ → κ) {step : σ → α → σ}
    (h : ∀ s a, key (step s a) = key s) :
    ∀ (l : List α) (s : σ), key (l.foldl step s) = key s := by
  intro l
  induction l with
  | nil => intro s; rfl
  | cons a l ih => intro s; rw [List.foldl_cons, ih, h]

theorem updateFirstIf_of_all_neg {α : Type} {p : α → Bool} {f : α → α} :
    ∀ {l : List α}, (∀ x ∈ l, p x = false) → updateFirstIf p f l = l := by
  intro l
  induction l with
  | nil => intro _; rfl
  | cons a l ih =>
    intro h
    rw [updateFirstIf, h a (List.mem_cons_self a l), ih (fun x hx => h x (List.mem_cons_of_mem a hx))]
    simp

theorem updateFirstIf_map_key {α κ : Type} {p : α → Bool} {f : α → α} {key : α → κ}
    (hf : ∀ x, key (f x) = key x) :
    ∀ l : List α, (updateFirstIf p f l).map key = l.map key := by
  intro l
  induction l with
  | nil => rfl
  | cons a l ih =>
    rw [updateFirstIf]
    cases p a <;> simp [hf, ih]

theorem updateLastIf_map_key {α κ : Type} {p : α → Bool} {f : α → α} {key : α → κ}
    (hf : ∀ x, key (f x) = key x) (l : List α) :
    (updateLastIf p f l).map key = l.map key := by
  rw [updateLastIf, List.map_reverse, updateFirstIf_map_key hf, List.map_reverse,
    List.reverse_reverse]

theorem updateLastIf_of_all_neg {α : Type} {p : α → Bool} {f : α → α} {l : List α}
    (h : ∀ x ∈ l, p x = false) : updateLastIf p f l = l := by
  rw [updateLastIf, updateFirstIf_of_all_neg (fun x hx => h x (List.mem_reverse.mp hx)),
    List.reverse_reverse]

/-- Pointwise update of every element satisfying `p`; agrees with
`updateFirstIf` and `updateLastIf` when at most one element satisfies `p`. -/
def mapIf {α : Type} (p : α → Bool) (f : α → α) (l : List α) : List α :=
  l.map (fun x => if p x then f x else x)

theorem mapIf_of_all_neg {α : Type} {p : α → Bool} {f : α → α} :
    ∀ {l : List α}, (∀ x ∈ l, p x = false) → mapIf p f l = l := by
  intro l
  induction l with
  | nil => intro _; rfl
  | cons a l ih =>
    intro h
    rw [mapIf, List.map_cons, h a (List.mem_cons_self a l)]
    simp only [Bool.false_eq_true, if_neg, not_false_iff]
    rw [show l.map _ = mapIf p f l from rfl, ih (fun x hx => h x (List.mem_cons_of_mem a hx))]

theorem countP_le_one_tail {α : Type} {p : α → Bool} {a : α} {l : List α}
    (h : (a :: l).countP p ≤ 1) (ha : p a = true) : ∀ x ∈ l, p x = false := by
  intro x hx
  cases hpx : p x with
  | false => rfl
  | true =>
    exfalso
    have h1 : 0 < l.countP p := List.countP_pos_iff.mpr ⟨x, hx, hpx⟩
    rw [List.countP_cons_of_pos _ _ ha] at h
    omega

theorem updateFirstIf_eq_mapIf {α : Type} {p : α → Bool} {f : α → α} :
    ∀ {l : List α}, l.countP p ≤ 1 → updateFirstIf p f l = mapIf p f l := by
  intro l
  induction l with
  | nil => intro _; rfl
  | cons a l ih =>
    intro h
    rw [updateFirstIf, mapIf, List.map_cons]
    cases hp : p a with
    | true =>
      simp only [if_pos]
      rw [show l.map _ = mapIf p f l from rfl,
        mapIf_of_all_neg (countP_le_one_tail h hp)]
    | false =>
      simp only [Bool.false_eq_true, if_neg, not_false_iff]
      rw [show l.map _ = mapIf p f l from rfl, ih ?_]
      rw [List.countP_cons, hp] at h
      simpa using h

theorem countP_reverse {α : Type} (p : α → Bool) :
    ∀ l : List α, l.reverse.countP p = l.countP p := by
  intro l
  induction l with
  | nil => rfl
  | cons a l ih =>
    rw [List.reverse_cons, List.countP_append, ih]
    simp only [List.countP_cons, List.countP_nil]
    omega

theorem mapIf_reverse {α : Type} (p : α → Bool) (f : α → α) (l : List α) :
    mapIf p f l.reverse = (mapIf p f l).reverse := by
  rw [mapIf, mapIf, List.map_reverse]

theorem updateLastIf_eq_mapIf {α : Type} {p : α → Bool} {f : α → α} {l : List α}
    (h : l.countP p ≤ 1) : updateLastIf p f l = mapIf p f l := by
  rw [updateLastIf, updateFirstIf_eq_mapIf (by rw [countP_reverse]; exact h),
    mapIf_reverse, List.reverse_reverse]

/-! ### Lemmas about the stable descending sort -/

theorem mem_insertDescBy {α : Type} {key : α → ℚ} {x a : α} :
    ∀ {l : List α}, a ∈ insertDescBy key x l ↔ a = x ∨ a ∈ l := by
  intro l
  induction l with
  | nil => simp [insertDescBy]
  | cons y ys ih =>
    rw [insertDescBy]
    by_cases h : key y ≤ key x
    · simp only [if_pos h, List.mem_cons]
    · simp only [if_neg h, List.mem_cons, ih]
      tauto

theorem mem_sortDescBy {α : Type} {key : α → ℚ} {a : α} :
    ∀ {l : List α}, a ∈ sortDescBy key l ↔ a ∈ l := by
  intro l
  induction l with
  | nil => simp [sortDescBy]
  | cons x xs ih =>
    rw [sortDescBy, mem_insertDescBy]
    simp only [List.mem_cons, ih]

theorem pairwise_insertDescBy {α : Type} {key : α → ℚ} {x : α} :
    ∀ {l : List α}, l.Pairwise (fun a b => key b ≤ key a) →
      (insertDescBy key x l).Pairwise (fun a b => key b ≤ key a) := by
  intro l
  induction l with
  | nil => intro _; simp [insertDescBy]
  | cons y ys ih =>
    intro hp
    rw [List.pairwise_cons] at hp
    rw [insertDescBy]
    by_cases h : key y ≤ key x
    · rw [if_pos h, List.pairwise_cons]
      refine ⟨?_, List.pairwise_cons.mpr hp⟩
      intro z hz
      rcases List.mem_cons.mp hz with hzy | hzys
      · rw [hzy]; exact h
      · exact le_trans (hp.1 z hzys) h
    · rw [if_neg h, List.pairwise_cons]
      refine ⟨?_, ih hp.2⟩
      intro z hz
      rcases mem_insertDescBy.mp hz with hzx | hzys
      · rw [hzx]; exact le_of_lt (lt_of_not_le h)
      · exact hp.1 z hzys

theorem pairwise_sortDescBy {α : Type} {key : α → ℚ} :
    ∀ (l : List α), (sortDescBy key l).Pairwise (fun a b => key b ≤ key a) := by
  intro l
  induction l with
  | nil => simp [sortDescBy]
  | cons x xs ih => exact pairwise_insertDescBy ih

theorem filter_insertDescBy {α : Type} {key : α → ℚ} (x : α) (q : ℚ) :
    ∀ l : List α,
      (insertDescBy key x l).filter (fun a => decide (key a = q)) =
        if key x = q then x :: l.filter (fun a => decide (key a = q))
        else l.filter (fun a => decide (key a = q)) := by
  intro l
  induction l with
  | nil =>
    rw [insertDescBy]
    by_cases hx : key x = q <;> simp [hx]
  | cons y ys ih =>
    rw [insertDescBy]
    by_cases h : key y ≤ key x
    · rw [if_pos h]
      by_cases hx : key x = q <;> simp [hx, List.filter_cons]
    · rw [if_neg h, List.filter_cons, List.filter_cons, ih]
      by_cases hx : key x = q
      · by_cases hy : key y = q
        · exact absurd (hy.trans hx.symm ▸ le_refl (key y)) h
        · simp [hx, hy]
      · by_cases hy : key y = q <;> simp [hx, hy]

theorem filter_sortDescBy {α : Type} {key : α → ℚ} (q : ℚ) :
    ∀ l : List α,
      (sortDescBy key l).filter (fun a => decide (key a = q)) =
        l.filter (fun a => decide (key a = q)) := by
  intro l
  induction l with
  | nil => rfl
  | cons x xs ih =>
    rw [sortDescBy, filter_insertDescBy, List.filter_cons]
    by_cases hx : key x = q <;> simp [hx, ih]

theorem mem_insertAscBy {α : Type} {key : α → ℕ} {x a : α} :
    ∀ {l : List α}, a ∈ insertAscBy key x l ↔ a = x ∨ a ∈ l := by
  intro l
  induction l with
  | nil => simp [insertAscBy]
  | cons y ys ih =>
    rw [insertAscBy]
    by_cases h : key x < key y
    · simp only [if_pos h, List.mem_cons]
    · simp only [if_neg h, List.mem_cons, ih]
      tauto

theorem mem_sortAscBy {α : Type} {key : α → ℕ} {a : α} :
    ∀ {l : List α}, a ∈ sortAscBy key l ↔ a ∈ l := by
  intro l
  induction l with
  | nil => simp [sortAscBy]
  | cons x xs ih =>
    rw [sortAscBy, mem_insertAscBy]
    simp only [List.mem_cons, ih]

theorem mem_jsEntries {α : Type} {x : String × α} {l : List (String × α)} :
    x ∈ jsEntries l ↔ x ∈ l := by
  rw [jsEntries, List.mem_append, mem_sortAscBy]
  constructor
  · rintro (h | h) <;> exact List.mem_of_mem_filter h
  · intro h
    by_cases hx : (keyAsIndex x.1).isSome
    · exact Or.inl (List.mem_filter.mpr ⟨h, by simp [hx]⟩)
    · exact Or.inr (List.mem_filter.mpr ⟨h, by simp [hx]⟩)

/-! ### Lemmas about the object-index lookup -/

theorem objLookup_isSome_iff {α : Type} {key : α → String} {k : String} :
    ∀ {l : List α}, (objLookup key l k).isSome = true ↔ ∃ x ∈ l, key x = k := by
  intro l
  induction l with
  | nil => simp [objLookup]
  | cons x xs ih =>
    rw [objLookup]
    cases hxs : objLookup key xs k with
    | some y =>
      simp only [Option.isSome_some, true_iff]
      have : ∃ x ∈ xs, key x = k := ih.mp (by rw [hxs]; rfl)
      rcases this with ⟨z, hz, hzk⟩
      exact ⟨z, List.mem_cons_of_mem x hz, hzk⟩
    | none =>
      rw [hxs] at ih
      by_cases hx : key x = k
      · simp only [if_pos hx, Option.isSome_some, true_iff]
        exact ⟨x, List.mem_cons_self x xs, hx⟩
      · simp only [if_neg hx, Option.isSome_none, Bool.false_eq_true, false_iff]
        intro ⟨z, hz, hzk⟩
        rcases List.mem_cons.mp hz with rfl | hzxs
        · exact hx hzk
        · exact (by simp at ih; exact ih z hzxs hzk : False)

theorem objLookup_eq_none {α : Type} {key : α → String} {k : String} {l : List α}
    (h : ∀ x ∈ l, key x ≠ k) : objLookup key l k = none := by
  cases hl : objLookup key l k with
  | none => rfl
  | some y =>
    exfalso
    have : (objLookup key l k).isSome = true := by rw [hl]; rfl
    rcases objLookup_isSome_iff.mp this with ⟨z, hz, hzk⟩
    exact h z hz hzk

/-! ### Small facts about the accumulator steps -/

theorem processItemM_seller_id (cr : LineItem → Product → ℚ) (ps : List Product)
    (s : StatM) (it : LineItem) : (processItemM cr ps s it).seller_id = s.seller_id := by
  rw [processItemM]
  cases objLookup Product.sku ps it.sku <;> rfl

theorem processItemM_revenue (cr : LineItem → Product → ℚ) (ps : List Product)
    (s : StatM) (it : LineItem) : (processItemM cr ps s it).revenue = s.revenue := by
  rw [processItemM]
  cases objLookup Product.sku ps it.sku <;> rfl

theorem processItemM_sales_count (cr : LineItem → Product → ℚ) (ps : List Product)
    (s : StatM) (it : LineItem) : (processItemM cr ps s it).sales_count = s.sales_count := by
  rw [processItemM]
  cases objLookup Product.sku ps it.sku <;> rfl

theorem recordBodyM_seller_id (cr : LineItem → Product → ℚ) (ps : List Product)
    (r : PurchaseRecord) (s : StatM) : (recordBodyM cr ps r s).seller_id = s.seller_id := by
  rw [recordBodyM]
  exact foldl_key_const StatM.seller_id (fun s a => processItemM_seller_id cr ps s a) r.items _

theorem recordBodyM_revenue (cr : LineItem → Product → ℚ) (ps : List Product)
    (r : PurchaseRecord) (s : StatM) :
    (recordBodyM cr ps r s).revenue = optAdd s.revenue r.total_amount := by
  rw [recordBodyM]
  exact foldl_key_const StatM.revenue (fun s a => processItemM_revenue cr ps s a) r.items _

theorem processRecordM_map_seller_id (cr : LineItem → Product → ℚ) (ps : List Product)
    (stats : List StatM) (r : PurchaseRecord) :
    (processRecordM cr ps stats r).map StatM.seller_id = stats.map StatM.seller_id := by
  rw [processRecordM]
  exact updateLastIf_map_key (fun s => recordBodyM_seller_id cr ps r s) stats

theorem aggregateM_map_seller_id (cr : LineItem → Product → ℚ) (sellers : List Seller)
    (ps : List Product) (records : List PurchaseRecord) :
    (aggregateM cr sellers ps records).map StatM.seller_id = sellers.map Seller.id := by
  rw [aggregateM]
  have h := foldl_key_const (fun stats => stats.map StatM.seller_id)
    (fun stats r => processRecordM_map_seller_id cr ps stats r) records (sellers.map mkStatM)
  rw [h, List.map_map]
  rfl

theorem nodup_countP_le_one {α : Type} {key : α → String} {k : String} :
    ∀ {l : List α}, (l.map key).Nodup →
      l.countP (fun x => decide (key x = k)) ≤ 1 := by
  intro l
  induction l with
  | nil => intro _; simp
  | cons a l ih =>
    intro h
    rw [List.map_cons, List.nodup_cons] at h
    rw [List.countP_cons]
    by_cases ha : key a = k
    · have hz : l.countP (fun x => decide (key x = k)) = 0 := by
        rw [List.countP_eq_zero]
        intro x hx
        simp only [decide_eq_true_eq]
        intro hxk
        exact h.1 (by rw [← ha] at hxk; exact hxk ▸ List.mem_map_of_mem key hx)
      simp [ha, hz]
    · simp only [ha, decide_eq_false, if_false]
      simpa [ha] using ih h.2

/-! ### Claim theorems: worked-example evaluations -/

/-- C2: the specification's worked example (seller S1, product P1 at
purchase price 10, one record with one line item: sale price 20, discount 0,
quantity 2) is claimed to yield revenue = 40, profit = 20 and bonus = 3.00.
Evaluating both source variants refutes this: main.js returns the single
report with `revenue = NaN` (it adds the absent `total_amount` field),
`profit = 20`, and `bonus = 3000` (its bonus strategy returns the tier rate
multiplied by 1000, and the caller multiplies by the profit again), while
part_000 raises a `TypeError` instead of returning a report. -/
theorem c2_worked_example_evaluation :
    analyzeSalesDataM (some exData) (some exOptionsM) =
      .ok [{ seller_id := "S1", name := "A B", revenue := none, profit := 20,
             sales_count := 1, top_products := [{ sku := "P1", quantity := 2 }],
             bonus := 3000 }] ∧
    analyzeSalesDataP (some exData) (some exOptionsP) = .error .typeError :=
  ⟨by decide, by decide⟩

/-- C3: tier values of the two bonus strategies, at the claim's edge cases.
The branch order itself is as claimed in both variants (rank index 0 takes
the top branch even when it is simultaneously the last place, and index 1 of
2 takes the second/third branch, not the last-place branch); but the main.js
strategy returns every tier rate multiplied by 1000 (top tier 150, not the
claimed rate 0.15), contradicting its own doc comment, while the part_000
strategy returns the bonus amount `profit * rate` with the claimed rates. -/
theorem c3_bonus_tiers_evaluation :
    (∀ (t : ℕ) (s : StatM), calculateBonusByProfitM 0 (t + 1) s = 0.15 * 1000) ∧
    (∀ (s : StatM), calculateBonusByProfitM 1 2 s = 0.1 * 1000) ∧
    ((0.15 : ℚ) * 1000 = 150) ∧ ((150 : ℚ) ≠ 0.15) ∧
    (∀ (s : StatP), calculateBonusByProfitP 0 1 s = s.profit * 0.15) ∧
    (∀ (s : StatP), calculateBonusByProfitP 1 2 s = s.profit * 0.1) := by
  refine ⟨fun t s => by rw [calculateBonusByProfitM]; simp,
    fun s => by rw [calculateBonusByProfitM]; simp,
    by decide, by decide,
    fun s => by rw [calculateBonusByProfitP]; simp,
    fun s => by rw [calculateBonusByProfitP]; simp⟩

/-- C1 counterexample: on the worked example extended with a stated
`total_amount` of 100 (while the strategy computes a line revenue of 40),
main.js reports revenue 100 — the sum of the records' `total_amount`, not of
the strategy's per-line revenues — and part_000 raises a `TypeError` instead
of producing output at all. -/
theorem c1_revenue_counterexample :
    analyzeSalesDataM (some exDataTA) (some exOptionsM) =
      .ok [{ seller_id := "S1", name := "A B", revenue := some 100, profit := 20,
             sales_count := 1, top_products := [{ sku := "P1", quantity := 2 }],
             bonus := 3000 }] ∧
    calculateSimpleRevenue exItem exProduct = 40 ∧
    some (100 : ℚ) ≠ some (toFixed2R 40) ∧
    analyzeSalesDataP (some exDataTA) (some exOptionsP) = .error .typeError :=
  ⟨by decide, by decide, by decide, by decide⟩

/-! ### What main.js actually accumulates as revenue -/

/-- Sum of `total_amount` over the purchase records carrying a given seller
id, with the NaN propagation of JavaScript addition (a missing
`total_amount` poisons the sum). -/
def recordRevenueSum (records : List PurchaseRecord) (sid : String) : Option ℚ :=
  (records.filter (fun r => decide (r.seller_id = sid))).foldl
    (fun acc r => optAdd acc r.total_amount) (some 0)

theorem aggregateM_revenue_aux (cr : LineItem → Product → ℚ) (ps : List Product) :
    ∀ (records : List PurchaseRecord) (stats : List StatM) (pre : String → Option ℚ),
      (stats.map StatM.seller_id).Nodup →
      (∀ stat ∈ stats, stat.revenue = pre stat.seller_id) →
      ∀ stat ∈ records.foldl (processRecordM cr ps) stats,
        stat.revenue =
          (records.filter (fun r => decide (r.seller_id = stat.seller_id))).foldl
            (fun acc r => optAdd acc r.total_amount) (pre stat.seller_id) := by
  intro records
  induction records with
  | nil =>
    intro stats pre _ hpre stat hstat
    simpa using hpre stat hstat
  | cons r rest ih =>
    intro stats pre hnd hpre stat hstat
    rw [List.foldl_cons] at hstat
    have hple : stats.countP (fun s => decide (s.seller_id = r.seller_id)) ≤ 1 :=
      nodup_countP_le_one hnd
    have hstats' : processRecordM cr ps stats r =
        mapIf (fun s => decide (s.seller_id = r.seller_id)) (recordBodyM cr ps r) stats := by
      rw [processRecordM, updateLastIf_eq_mapIf hple]
    have hnd' : ((processRecordM cr ps stats r).map StatM.seller_id).Nodup := by
      rw [processRecordM_map_seller_id]; exact hnd
    have hpre2 : ∀ s ∈ processRecordM cr ps stats r, s.revenue =
        (fun sid => if r.seller_id = sid then optAdd (pre sid) r.total_amount else pre sid)
          s.seller_id := by
      intro s hs
      rw [hstats', mapIf] at hs
      rcases List.mem_map.mp hs with ⟨t, ht, hts⟩
      by_cases hid : t.seller_id = r.seller_id
      · rw [if_pos (by simpa using hid)] at hts
        rw [← hts]
        dsimp only
        rw [recordBodyM_revenue, recordBodyM_seller_id, hid, if_pos rfl, hpre t ht, hid]
      · rw [if_neg (by simpa using hid)] at hts
        rw [← hts]
        dsimp only
        rw [if_neg (fun hc => hid (Eq.symm hc)), hpre t ht]
    have hrec := ih (processRecordM cr ps stats r)
      (fun sid => if r.seller_id = sid then optAdd (pre sid) r.total_amount else pre sid)
      hnd' hpre2 stat hstat
    rw [List.filter_cons]
    by_cases hc : r.seller_id = stat.seller_id
    · rw [if_pos (by simpa using hc), List.foldl_cons, hrec]
      dsimp only
      rw [if_pos hc]
    · rw [if_neg (by simpa using hc), hrec]
      dsimp only
      rw [if_neg hc]

/-- Successful validation in main.js: the result is the core pipeline. -/
theorem analyzeSalesDataM_ok {sellers : List Seller} {products : List Product}
    {records : List PurchaseRecord} {cr : LineItem → Product → ℚ}
    {cb : ℕ → ℕ → StatM → ℚ} {reports : List Report}
    (h : analyzeSalesDataM (some ⟨some sellers, some products, some records⟩)
      (some ⟨some cr, some cb⟩) = .ok reports) :
    reports = analyzeCoreM cr cb sellers products records := by
  simp only [analyzeSalesDataM] at h
  split_ifs at h <;>
    first
    | exact (Except.ok.inj h).symm
    | exact absurd h (by simp)

theorem mem_rankSellersAuxM {cb : ℕ → ℕ → StatM → ℚ} {total : ℕ} :
    ∀ {l : List StatM} {i : ℕ} {rk : RankedM}, rk ∈ rankSellersAuxM cb total i l →
      ∃ s ∈ l, ∃ j, rk = rankOneM cb total j s := by
  intro l
  induction l with
  | nil => intro i rk h; simp [rankSellersAuxM] at h
  | cons s rest ih =>
    intro i rk h
    rw [rankSellersAuxM] at h
    rcases List.mem_cons.mp h with h1 | h2
    · exact ⟨s, List.mem_cons_self s rest, i, h1⟩
    · rcases ih h2 with ⟨t, ht, j, hj⟩
      exact ⟨t, List.mem_cons_of_mem s ht, j, hj⟩

/-- C1 (amended): in main.js, the revenue a report shows for a seller is the
two-decimal rounding of the sum of `total_amount` over that seller's
purchase records (`NaN`, modelled `none`, if any of them lacks the field) —
it is not the sum of the per-line-item revenues computed by the injected
Revenue Strategy; the part_000 variant accumulates strategy revenue but
fails with a `TypeError` before producing output whenever any line item is
matched. -/
theorem c1_amended_revenue_is_total_amount_sum
    (sellers : List Seller) (products : List Product) (records : List PurchaseRecord)
    (cr : LineItem → Product → ℚ) (cb : ℕ → ℕ → StatM → ℚ) (reports : List Report)
    (hnd : (sellers.map Seller.id).Nodup)
    (hok : analyzeSalesDataM (some ⟨some sellers, some products, some records⟩)
      (some ⟨some cr, some cb⟩) = .ok reports) :
    ∀ rep ∈ reports, rep.revenue = (recordRevenueSum records rep.seller_id).map toFixed2R := by
  intro rep hrep
  rw [analyzeSalesDataM_ok hok, analyzeCoreM] at hrep
  rcases List.mem_map.mp hrep with ⟨rk, hrk, hproj⟩
  rcases mem_rankSellersAuxM hrk with ⟨s, hs, j, hj⟩
  have hsagg : s ∈ aggregateM cr sellers products records := mem_sortDescBy.mp hs
  have hinv := aggregateM_revenue_aux cr products records (sellers.map mkStatM)
    (fun _ => some 0)
    (by rw [List.map_map]; exact (show (sellers.map (StatM.seller_id ∘ mkStatM)).Nodup
      from by simpa [Function.comp, mkStatM] using hnd))
    (by intro stat hstat; rcases List.mem_map.mp hstat with ⟨z, _, hz⟩; rw [← hz]; rfl)
    s hsagg
  rw [← hproj, hj]
  show (projectM (rankOneM cb _ j s)).revenue =
    (recordRevenueSum records (projectM (rankOneM cb _ j s)).seller_id).map toFixed2R
  rw [projectM, rankOneM]
  simp only
  rw [recordRevenueSum, hinv]

/-- Report that main.js produces on the worked example with a stated
`total_amount` of 100. -/
def exReportTA : Report :=
  { seller_id := "S1", name := "A B", revenue := some 100, profit := 20,
    sales_count := 1, top_products := [{ sku := "P1", quantity := 2 }],
    bonus := 3000 }

/-- C1 (amended) witness: on the worked example with a stated `total_amount`
of 100, the amended statement evaluates as claimed. -/
theorem c1_amended_revenue_witness :
    (([exSeller].map Seller.id).Nodup) ∧
    (analyzeSalesDataM (some exDataTA) (some exOptionsM) = .ok [exReportTA]) ∧
    (∀ rep ∈ [exReportTA],
      rep.revenue = (recordRevenueSum [exRecordTA] rep.seller_id).map toFixed2R) :=
  ⟨by decide, by decide,
    c1_amended_revenue_is_total_amount_sum [exSeller] [exProduct] [exRecordTA]
      calculateSimpleRevenue calculateBonusByProfitM _ (by decide) (by decide)⟩

/-! ### Validation predicates -/

/-- A top-level collection fails validation when it is missing / not an
array (`none`) or empty. -/
def badListOpt {α : Type} : Option (List α) → Prop
  | none => True
  | some l => l = []

/-- The `InvalidInput` conditions of the specification. -/
def dataBad : Option RawDataSet → Prop
  | none => True
  | some d => badListOpt d.sellers ∨ badListOpt d.products ∨ badListOpt d.purchase_records

/-- The `InvalidConfiguration` conditions, main.js options shape. -/
def optionsBadM : Option OptionsM → Prop
  | none => True
  | some o => o.calculateRevenue = none ∨ o.calculateBonusByProfit = none

/-- The `InvalidConfiguration` conditions, part_000 options shape. -/
def optionsBadP : Option OptionsP → Prop
  | none => True
  | some o => o.calculateRevenue = none ∨ o.calculateBonus = none

/-- The result is one of the `InvalidInput` errors. -/
def isInputErr : Except JsErr (List Report) → Prop
  | .error .invalidData => True
  | .error .invalidRecords => True
  | .error .invalidProducts => True
  | .error .invalidSellers => True
  | _ => False

/-- The result is one of the `InvalidConfiguration` errors. -/
def isConfigErr : Except JsErr (List Report) → Prop
  | .error .noOptions => True
  | .error .noCalcRevenue => True
  | .error .noCalcBonus => True
  | _ => False

theorem mapExcept_projectP_cases (l : List RankedP) :
    (∃ reports, mapExcept projectP l = .ok reports) ∨
      mapExcept projectP l = .error .typeError := by
  induction l with
  | nil => exact .inl ⟨[], rfl⟩
  | cons r rest ih =>
    rw [mapExcept]
    cases hr : projectP r with
    | error e =>
      have he : e = .typeError := by
        rw [projectP] at hr
        cases hrev : r.revenue with
        | str s => rw [hrev] at hr; exact (Except.error.inj hr).symm
        | num q => rw [hrev] at hr; exact Except.noConfusion hr
      rw [he]
      exact .inr rfl
    | ok y =>
      rcases ih with ⟨reps, hreps⟩ | herr
      · rw [hreps]; exact .inl ⟨y :: reps, rfl⟩
      · rw [herr]; exact .inr rfl

theorem analyzeCoreP_no_validation_err (cr : LineItem → Product → ℚ)
    (cb : ℕ → ℕ → StatP → ℚ) (sellers : List Seller) (products : List Product)
    (records : List PurchaseRecord) :
    ¬ isInputErr (analyzeCoreP cr cb sellers products records) ∧
      ¬ isConfigErr (analyzeCoreP cr cb sellers products records) := by
  rw [analyzeCoreP]
  rcases mapExcept_projectP_cases
    (rankSellersP cb (sortDescBy StatP.profit (aggregateP cr sellers products records))) with
      ⟨reps, hreps⟩ | herr
  · rw [hreps]; exact ⟨fun h => h, fun h => h⟩
  · rw [herr]; exact ⟨fun h => h, fun h => h⟩

/-- C5: each variant raises a validation error exactly as specified — an
`InvalidInput` error (one of the four Russian messages over
data/records/products/sellers) precisely when the dataset is missing or one
of the three collections is missing, not an array, or empty; an
`InvalidConfiguration` error (missing options object or missing /
non-invocable strategy) precisely when the data passes and the options do
not; and on inputs passing all checks no such error is raised (main.js then
returns a report; part_000 returns its pipeline result, whose only possible
error is the later `TypeError`, not a validation error). -/
theorem c5_validation_errors (data : Option RawDataSet) (optsM : Option OptionsM)
    (optsP : Option OptionsP) :
    (isInputErr (analyzeSalesDataM data optsM) ↔ dataBad data) ∧
    (isConfigErr (analyzeSalesDataM data optsM) ↔ (¬ dataBad data ∧ optionsBadM optsM)) ∧
    (¬ dataBad data → ¬ optionsBadM optsM →
      ∃ reports, analyzeSalesDataM data optsM = .ok reports) ∧
    (isInputErr (analyzeSalesDataP data optsP) ↔ dataBad data) ∧
    (isConfigErr (analyzeSalesDataP data optsP) ↔ (¬ dataBad data ∧ optionsBadP optsP)) := by
  rcases data with _ | ⟨os, op, orc⟩
  · simp [analyzeSalesDataM, analyzeSalesDataP, dataBad, isInputErr, isConfigErr]
  · rcases orc with _ | records
    · simp [analyzeSalesDataM, analyzeSalesDataP, dataBad, badListOpt, isInputErr, isConfigErr]
    · rcases records with _ | ⟨r0, records⟩
      · simp [analyzeSalesDataM, analyzeSalesDataP, dataBad, badListOpt, isInputErr, isConfigErr]
      · rcases op with _ | products
        · simp [analyzeSalesDataM, analyzeSalesDataP, dataBad, badListOpt, isInputErr,
            isConfigErr]
        · rcases products with _ | ⟨p0, products⟩
          · simp [analyzeSalesDataM, analyzeSalesDataP, dataBad, badListOpt, isInputErr,
              isConfigErr]
          · rcases os with _ | sellers
            · simp [analyzeSalesDataM, analyzeSalesDataP, dataBad, badListOpt, isInputErr,
                isConfigErr]
            · rcases sellers with _ | ⟨s0, sellers⟩
              · simp [analyzeSalesDataM, analyzeSalesDataP, dataBad, badListOpt, isInputErr,
                  isConfigErr]
              · refine ⟨?_, ?_, ?_, ?_, ?_⟩
                · simp [analyzeSalesDataM, dataBad, badListOpt, isInputErr, isConfigErr]
                  rcases optsM with _ | ⟨ocr, ocb⟩
                  · simp [isInputErr]
                  · rcases ocr with _ | cr
                    · simp [isInputErr]
                    · rcases ocb with _ | cb
                      · simp [isInputErr]
                      · simp [isInputErr]
                · rcases optsM with _ | ⟨ocr, ocb⟩
                  · simp [analyzeSalesDataM, dataBad, badListOpt, isConfigErr, optionsBadM]
                  · rcases ocr with _ | cr
                    · simp [analyzeSalesDataM, dataBad, badListOpt, isConfigErr, optionsBadM]
                    · rcases ocb with _ | cb
                      · simp [analyzeSalesDataM, dataBad, badListOpt, isConfigErr, optionsBadM]
                      · simp [analyzeSalesDataM, dataBad, badListOpt, isConfigErr, optionsBadM]
                · intro _ hopt
                  rcases optsM with _ | ⟨ocr, ocb⟩
                  · exact absurd trivial hopt
                  · rcases ocr with _ | cr
                    · exact absurd (Or.inl rfl) hopt
                    · rcases ocb with _ | cb
                      · exact absurd (Or.inr rfl) hopt
                      · exact ⟨analyzeCoreM cr cb (s0 :: sellers) (p0 :: products)
                          (r0 :: records), by simp [analyzeSalesDataM]⟩
                · rcases optsP with _ | ⟨ocr, ocb⟩
                  · simp [analyzeSalesDataP, dataBad, badListOpt, isInputErr]
                  · rcases ocr with _ | cr
                    · simp [analyzeSalesDataP, dataBad, badListOpt, isInputErr]
                    · rcases ocb with _ | cb
                      · simp [analyzeSalesDataP, dataBad, badListOpt, isInputErr]
                      · simp only [analyzeSalesDataP]
                        simp only [List.length_cons, Nat.succ_ne_zero, if_false]
                        constructor
                        · intro h
                          exact absurd h (analyzeCoreP_no_validation_err cr cb _ _ _).1
                        · intro h
                          simp [dataBad, badListOpt] at h
                · rcases optsP with _ | ⟨ocr, ocb⟩
                  · simp [analyzeSalesDataP, dataBad, badListOpt, isConfigErr, optionsBadP]
                  · rcases ocr with _ | cr
                    · simp [analyzeSalesDataP, dataBad, badListOpt, isConfigErr, optionsBadP]
                    · rcases ocb with _ | cb
                      · simp [analyzeSalesDataP, dataBad, badListOpt, isConfigErr, optionsBadP]
                      · simp only [analyzeSalesDataP]
                        simp only [List.length_cons, Nat.succ_ne_zero, if_false]
                        constructor
                        · intro h
                          exact absurd h (analyzeCoreP_no_validation_err cr cb _ _ _).2
                        · intro h
                          simp [optionsBadP] at h

/-- C5 witness: the classification, evaluated on the worked example. -/
theorem c5_validation_errors_witness :
    (isInputErr (analyzeSalesDataM (some exData) (some exOptionsM)) ↔ dataBad (some exData)) ∧
    (isConfigErr (analyzeSalesDataM (some exData) (some exOptionsM)) ↔
      (¬ dataBad (some exData) ∧ optionsBadM (some exOptionsM))) ∧
    (¬ dataBad (some exData) → ¬ optionsBadM (some exOptionsM) →
      ∃ reports, analyzeSalesDataM (some exData) (some exOptionsM) = .ok reports) ∧
    (isInputErr (analyzeSalesDataP (some exData) (some exOptionsP)) ↔ dataBad (some exData)) ∧
    (isConfigErr (analyzeSalesDataP (some exData) (some exOptionsP)) ↔
      (¬ dataBad (some exData) ∧ optionsBadP (some exOptionsP))) :=
  c5_validation_errors (some exData) (some exOptionsM) (some exOptionsP)

/-! ### Frame-threaded versions: the dataset rides through the fold -/

/-- Aggregation fold with the input dataset threaded through every record
step.  The step writes only the accumulator component — the loop body of the
source assigns only to fields of the seller accumulators — so the dataset
component is carried unchanged. -/
def aggregateMFr (cr : LineItem → Product → ℚ) (d : RawDataSet) (sellers : List Seller)
    (products : List Product) (records : List PurchaseRecord) :
    RawDataSet × List StatM :=
  records.foldl (fun st r => (st.1, processRecordM cr products st.2 r))
    (d, sellers.map mkStatM)

def aggregatePFr (cr : LineItem → Product → ℚ) (d : RawDataSet) (sellers : List Seller)
    (products : List Product) (records : List PurchaseRecord) :
    RawDataSet × List StatP :=
  records.foldl (fun st r => (st.1, processRecordP cr products st.2 r))
    (d, sellers.map mkStatP)

/-- main.js with its input dataset returned alongside the result. -/
def analyzeSalesDataMFr (data : Option RawDataSet) (options : Option OptionsM) :
    Option RawDataSet × Except JsErr (List Report) :=
  match data with
  | none => (data, .error .invalidData)
  | some d =>
    match d.purchase_records with
    | none => (data, .error .invalidRecords)
    | some records =>
      if records.length = 0 then (data, .error .invalidRecords)
      else
        match d.products with
        | none => (data, .error .invalidProducts)
        | some products =>
          if products.length = 0 then (data, .error .invalidProducts)
          else
            match d.sellers with
            | none => (data, .error .invalidSellers)
            | some sellers =>
              if sellers.length = 0 then (data, .error .invalidSellers)
              else
                match options with
                | none => (data, .error .noOptions)
                | some opts =>
                  match opts.calculateRevenue with
                  | none => (data, .error .noCalcRevenue)
                  | some calcRev =>
                    match opts.calculateBonusByProfit with
                    | none => (data, .error .noCalcBonus)
                    | some calcBonus =>
                      let res := aggregateMFr calcRev d sellers products records
                      (some res.1,
                        .ok ((rankSellersM calcBonus
                          (sortDescBy StatM.profit res.2)).map projectM))

/-- part_000 with its input dataset returned alongside the result. -/
def analyzeSalesDataPFr (data : Option RawDataSet) (options : Option OptionsP) :
    Option RawDataSet × Except JsErr (List Report) :=
  match data with
  | none => (data, .error .invalidData)
  | some d =>
    match d.purchase_records with
    | none => (data, .error .invalidRecords)
    | some records =>
      if records.length = 0 then (data, .error .invalidRecords)
      else
        match d.products with
        | none => (data, .error .invalidProducts)
        | some products =>
          if products.length = 0 then (data, .error .invalidProducts)
          else
            match d.sellers with
            | none => (data, .error .invalidSellers)
            | some sellers =>
              if sellers.length = 0 then (data, .error .invalidSellers)
              else
                match options with
                | none => (data, .error .noOptions)
                | some opts =>
                  match opts.calculateRevenue with
                  | none => (data, .error .noCalcRevenue)
                  | some calcRev =>
                    match opts.calculateBonus with
                    | none => (data, .error .noCalcBonus)
                    | some calcBonus =>
                      let res := aggregatePFr calcRev d sellers products records
                      (some res.1,
                        mapExcept projectP (rankSellersP calcBonus
                          (sortDescBy StatP.profit res.2)))

theorem foldl_pair_fst {α σ τ : Type} (g : σ → α → σ) :
    ∀ (l : List α) (t : τ) (s : σ),
      l.foldl (fun st r => (st.1, g st.2 r)) (t, s) = (t, l.foldl g s) := by
  intro l
  induction l with
  | nil => intro t s; rfl
  | cons a l ih => intro t s; rw [List.foldl_cons, List.foldl_cons]; exact ih t (g s a)

theorem aggregateMFr_eq (cr : LineItem → Product → ℚ) (d : RawDataSet)
    (sellers : List Seller) (products : List Product) (records : List PurchaseRecord) :
    aggregateMFr cr d sellers products records =
      (d, aggregateM cr sellers products records) := by
  rw [aggregateMFr, aggregateM]
  exact foldl_pair_fst _ records d (sellers.map mkStatM)

theorem aggregatePFr_eq (cr : LineItem → Product → ℚ) (d : RawDataSet)
    (sellers : List Seller) (products : List Product) (records : List PurchaseRecord) :
    aggregatePFr cr d sellers products records =
      (d, aggregateP cr sellers products records) := by
  rw [aggregatePFr, aggregateP]
  exact foldl_pair_fst _ records d (sellers.map mkStatP)

theorem analyzeSalesDataMFr_eq (data : Option RawDataSet) (opts : Option OptionsM) :
    analyzeSalesDataMFr data opts = (data, analyzeSalesDataM data opts) := by
  rcases data with _ | ⟨os, op, orc⟩
  · rfl
  · rcases orc with _ | records
    · rfl
    · rcases records with _ | ⟨r0, records⟩
      · rfl
      · rcases op with _ | products
        · rfl
        · rcases products with _ | ⟨p0, products⟩
          · rfl
          · rcases os with _ | sellers
            · rfl
            · rcases sellers with _ | ⟨s0, sellers⟩
              · rfl
              · rcases opts with _ | ⟨ocr, ocb⟩
                · rfl
                · rcases ocr with _ | cr
                  · rfl
                  · rcases ocb with _ | cb
                    · rfl
                    · simp [analyzeSalesDataMFr, analyzeSalesDataM, aggregateMFr_eq,
                        analyzeCoreM]

theorem analyzeSalesDataPFr_eq (data : Option RawDataSet) (opts : Option OptionsP) :
    analyzeSalesDataPFr data opts = (data, analyzeSalesDataP data opts) := by
  rcases data with _ | ⟨os, op, orc⟩
  · rfl
  · rcases orc with _ | records
    · rfl
    · rcases records with _ | ⟨r0, records⟩
      · rfl
      · rcases op with _ | products
        · rfl
        · rcases products with _ | ⟨p0, products⟩
          · rfl
          · rcases os with _ | sellers
            · rfl
            · rcases sellers with _ | ⟨s0, sellers⟩
              · rfl
              · rcases opts with _ | ⟨ocr, ocb⟩
                · rfl
                · rcases ocr with _ | cr
                  · rfl
                  · rcases ocb with _ | cb
                    · rfl
                    · simp [analyzeSalesDataPFr, analyzeSalesDataP, aggregatePFr_eq,
                        analyzeCoreP]

/-- C9: neither variant mutates its input collections, and the pipeline is
idempotent.  In the dataset-threaded embedding (the dataset rides through
every fold step, as the loop bodies of the source read it but assign only to
the accumulators) the dataset comes back unchanged, the result is that of
the plain embedding, and re-running the analysis on the dataset returned by
the first run reproduces the first run exactly. -/
theorem c9_inputs_unchanged_and_idempotent (data : Option RawDataSet)
    (optsM : Option OptionsM) (optsP : Option OptionsP) :
    ((analyzeSalesDataMFr data optsM).1 = data ∧
      (analyzeSalesDataMFr data optsM).2 = analyzeSalesDataM data optsM ∧
      analyzeSalesDataMFr (analyzeSalesDataMFr data optsM).1 optsM =
        analyzeSalesDataMFr data optsM) ∧
    ((analyzeSalesDataPFr data optsP).1 = data ∧
      (analyzeSalesDataPFr data optsP).2 = analyzeSalesDataP data optsP ∧
      analyzeSalesDataPFr (analyzeSalesDataPFr data optsP).1 optsP =
        analyzeSalesDataPFr data optsP) := by
  rw [analyzeSalesDataMFr_eq, analyzeSalesDataPFr_eq]
  exact ⟨⟨rfl, rfl, by rw [analyzeSalesDataMFr_eq]⟩, ⟨rfl, rfl, by rw [analyzeSalesDataPFr_eq]⟩⟩

/-! ### Monotonicity of the two-decimal rounding -/

theorem natFloorQ_le {q : ℚ} (hq : 0 ≤ q) : (natFloorQ q : ℚ) ≤ q := by
  rw [natFloorQ]
  have hd : (0 : ℚ) < (q.den : ℚ) := by exact_mod_cast q.pos
  have h2 : ((q.num.toNat : ℚ)) = (q.num : ℚ) := by
    exact_mod_cast congrArg (Int.cast : ℤ → ℚ) (Int.toNat_of_nonneg (Rat.num_nonneg.mpr hq))
  conv_rhs => rw [← Rat.num_div_den q]
  rw [le_div_iff hd]
  have h1 : (q.num.toNat / q.den) * q.den ≤ q.num.toNat := Nat.div_mul_le_self _ _
  calc ((q.num.toNat / q.den : ℕ) : ℚ) * (q.den : ℚ)
      = (((q.num.toNat / q.den) * q.den : ℕ) : ℚ) := by push_cast; ring
    _ ≤ ((q.num.toNat : ℕ) : ℚ) := by exact_mod_cast h1
    _ = (q.num : ℚ) := h2

theorem lt_natFloorQ_add_one {q : ℚ} (hq : 0 ≤ q) : q < (natFloorQ q : ℚ) + 1 := by
  rw [natFloorQ]
  have hdn : 0 < q.den := q.pos
  have hd : (0 : ℚ) < (q.den : ℚ) := by exact_mod_cast hdn
  have h1 : q.num.toNat < (q.num.toNat / q.den + 1) * q.den := by
    have hdm := Nat.div_add_mod q.num.toNat q.den
    have hm : q.num.toNat % q.den < q.den := Nat.mod_lt _ hdn
    calc q.num.toNat = q.den * (q.num.toNat / q.den) + q.num.toNat % q.den := hdm.symm
      _ < q.den * (q.num.toNat / q.den) + q.den := Nat.add_lt_add_left hm _
      _ = (q.num.toNat / q.den + 1) * q.den := by ring
  have h2 : ((q.num.toNat : ℚ)) = (q.num : ℚ) := by
    exact_mod_cast congrArg (Int.cast : ℤ → ℚ) (Int.toNat_of_nonneg (Rat.num_nonneg.mpr hq))
  conv_lhs => rw [← Rat.num_div_den q]
  rw [div_lt_iff hd]
  calc (q.num : ℚ) = ((q.num.toNat : ℕ) : ℚ) := h2.symm
    _ < (((q.num.toNat / q.den + 1) * q.den : ℕ) : ℚ) := by exact_mod_cast h1
    _ = (((q.num.toNat / q.den : ℕ) : ℚ) + 1) * (q.den : ℚ) := by push_cast; ring

theorem natFloorQ_mono {a b : ℚ} (ha : 0 ≤ a) (hab : a ≤ b) : natFloorQ a ≤ natFloorQ b := by
  by_contra hcon
  push_neg at hcon
  have h1 : (natFloorQ b : ℚ) + 1 ≤ (natFloorQ a : ℚ) := by exact_mod_cast hcon
  have h2 : b < (natFloorQ b : ℚ) + 1 := lt_natFloorQ_add_one (le_trans ha hab)
  have h3 : (natFloorQ a : ℚ) ≤ a := natFloorQ_le ha
  linarith

theorem roundHalfAway_mono {a b : ℚ} (hab : a ≤ b) :
    roundHalfAway a ≤ roundHalfAway b := by
  rw [roundHalfAway, roundHalfAway]
  by_cases ha : a < 0
  · by_cases hb : b < 0
    · rw [if_pos ha, if_pos hb]
      have h := natFloorQ_mono (a := 1/2 - b) (b := 1/2 - a)
        (by linarith) (by linarith)
      omega
    · rw [if_pos ha, if_neg hb]
      omega
  · have hb : ¬ b < 0 := fun h => ha (lt_of_le_of_lt hab h)
    rw [if_neg ha, if_neg hb]
    have h := natFloorQ_mono (a := a + 1/2) (b := b + 1/2)
      (by push_neg at ha; linarith) (by linarith)
    omega

theorem toFixed2R_mono {a b : ℚ} (hab : a ≤ b) : toFixed2R a ≤ toFixed2R b := by
  rw [toFixed2R, toFixed2R]
  have h := roundHalfAway_mono (a := a * 100) (b := b * 100)
    (by nlinarith)
  have h2 : ((roundHalfAway (a * 100) : ℤ) : ℚ) ≤ ((roundHalfAway (b * 100) : ℤ) : ℚ) := by
    exact_mod_cast h
  linarith

/-! ### Ranking lemmas (main.js) -/

theorem rankSellersAuxM_length (cb : ℕ → ℕ → StatM → ℚ) (total : ℕ) :
    ∀ (l : List StatM) (i : ℕ), (rankSellersAuxM cb total i l).length = l.length := by
  intro l
  induction l with
  | nil => intro i; rfl
  | cons s rest ih =>
    intro i
    rw [rankSellersAuxM, List.length_cons, List.length_cons, ih]

theorem rankSellersAuxM_get_rank (cb : ℕ → ℕ → StatM → ℚ) (total : ℕ) :
    ∀ (l : List StatM) (i j : ℕ) (h : j < (rankSellersAuxM cb total i l).length),
      ((rankSellersAuxM cb total i l).get ⟨j, h⟩).rank = i + j + 1 := by
  intro l
  induction l with
  | nil => intro i j h; exact absurd h (by simp [rankSellersAuxM])
  | cons s rest ih =>
    intro i j h
    simp only [rankSellersAuxM] at h ⊢
    match j with
    | 0 => rfl
    | j + 1 =>
      rw [List.get_cons_succ]
      rw [ih (i + 1) j (by
        rw [List.length_cons] at h
        omega)]
      omega

theorem rankSellersAuxM_profit_pairwise {cb : ℕ → ℕ → StatM → ℚ} {total : ℕ} :
    ∀ {l : List StatM} {i : ℕ}, l.Pairwise (fun a b => b.profit ≤ a.profit) →
      (rankSellersAuxM cb total i l).Pairwise (fun a b => b.profit ≤ a.profit) := by
  intro l
  induction l with
  | nil => intro i _; exact List.Pairwise.nil
  | cons s rest ih =>
    intro i hp
    rw [List.pairwise_cons] at hp
    rw [rankSellersAuxM, List.pairwise_cons]
    refine ⟨?_, ih hp.2⟩
    intro rk hrk
    rcases mem_rankSellersAuxM hrk with ⟨t, ht, j, hj⟩
    rw [hj]
    exact hp.1 t ht

/-- C6: for every input accepted by main.js, the returned report list is the
order-preserving projection of the profit-descending stable sort of the
seller accumulators: the sort is descending by profit, it is stable (for
every profit value, the sellers carrying it appear in input order — the
filter characterisation of stability), the projected reports are themselves
sorted by their rounded profit, and the rank assigned at position `j`
(zero-based) is `j + 1`; the part_000 variant sorts its accumulators with
the same stable profit-descending sort (conjuncts on `aggregateP`). -/
theorem c6_output_sorted_stable_ranked
    (sellers : List Seller) (products : List Product) (records : List PurchaseRecord)
    (cr : LineItem → Product → ℚ) (cb : ℕ → ℕ → StatM → ℚ) (reports : List Report)
    (hok : analyzeSalesDataM (some ⟨some sellers, some products, some records⟩)
      (some ⟨some cr, some cb⟩) = .ok reports) :
    reports =
      (rankSellersM cb (sortDescBy StatM.profit
        (aggregateM cr sellers products records))).map projectM ∧
    (sortDescBy StatM.profit (aggregateM cr sellers products records)).Pairwise
      (fun a b => b.profit ≤ a.profit) ∧
    (∀ q : ℚ,
      (sortDescBy StatM.profit (aggregateM cr sellers products records)).filter
          (fun s => decide (s.profit = q)) =
        (aggregateM cr sellers products records).filter (fun s => decide (s.profit = q))) ∧
    reports.Pairwise (fun a b => b.profit ≤ a.profit) ∧
    (∀ (j : ℕ) (h : j < (rankSellersM cb (sortDescBy StatM.profit
        (aggregateM cr sellers products records))).length),
      ((rankSellersM cb (sortDescBy StatM.profit
        (aggregateM cr sellers products records))).get ⟨j, h⟩).rank = j + 1) ∧
    (sortDescBy StatP.profit (aggregateP cr sellers products records)).Pairwise
      (fun a b => b.profit ≤ a.profit) ∧
    (∀ q : ℚ,
      (sortDescBy StatP.profit (aggregateP cr sellers products records)).filter
          (fun s => decide (s.profit = q)) =
        (aggregateP cr sellers products records).filter (fun s => decide (s.profit = q))) := by
  have hrep : reports =
      (rankSellersM cb (sortDescBy StatM.profit
        (aggregateM cr sellers products records))).map projectM := by
    rw [analyzeSalesDataM_ok hok, analyzeCoreM]
  have hpair : (sortDescBy StatM.profit (aggregateM cr sellers products records)).Pairwise
      (fun a b => b.profit ≤ a.profit) := pairwise_sortDescBy _
  refine ⟨hrep, hpair, fun q => filter_sortDescBy q _, ?_, ?_,
    pairwise_sortDescBy _, fun q => filter_sortDescBy q _⟩
  · rw [hrep, rankSellersM]
    refine List.Pairwise.map projectM ?_ (rankSellersAuxM_profit_pairwise hpair)
    intro a b hab
    show toFixed2R b.profit ≤ toFixed2R a.profit
    exact toFixed2R_mono hab
  · intro j h
    simp only [rankSellersM] at h ⊢
    rw [rankSellersAuxM_get_rank]
    omega

/-- C6 witness: the sortedness, stability and rank properties, evaluated on
the worked example with a stated `total_amount`. -/
theorem c6_output_sorted_witness :
    (analyzeSalesDataM (some exDataTA) (some exOptionsM) = .ok [exReportTA]) ∧
    ([exReportTA] =
      (rankSellersM calculateBonusByProfitM (sortDescBy StatM.profit
        (aggregateM calculateSimpleRevenue [exSeller] [exProduct] [exRecordTA]))).map projectM ∧
    (sortDescBy StatM.profit
      (aggregateM calculateSimpleRevenue [exSeller] [exProduct] [exRecordTA])).Pairwise
      (fun a b => b.profit ≤ a.profit) ∧
    (∀ q : ℚ,
      (sortDescBy StatM.profit
        (aggregateM calculateSimpleRevenue [exSeller] [exProduct] [exRecordTA])).filter
          (fun s => decide (s.profit = q)) =
        (aggregateM calculateSimpleRevenue [exSeller] [exProduct] [exRecordTA]).filter
          (fun s => decide (s.profit = q))) ∧
    [exReportTA].Pairwise (fun a b => b.profit ≤ a.profit) ∧
    (∀ (j : ℕ) (h : j < (rankSellersM calculateBonusByProfitM (sortDescBy StatM.profit
        (aggregateM calculateSimpleRevenue [exSeller] [exProduct] [exRecordTA]))).length),
      ((rankSellersM calculateBonusByProfitM (sortDescBy StatM.profit
        (aggregateM calculateSimpleRevenue [exSeller] [exProduct] [exRecordTA]))).get
          ⟨j, h⟩).rank = j + 1) ∧
    (sortDescBy StatP.profit
      (aggregateP calculateSimpleRevenue [exSeller] [exProduct] [exRecordTA])).Pairwise
      (fun a b => b.profit ≤ a.profit) ∧
    (∀ q : ℚ,
      (sortDescBy StatP.profit
        (aggregateP calculateSimpleRevenue [exSeller] [exProduct] [exRecordTA])).filter
          (fun s => decide (s.profit = q)) =
        (aggregateP calculateSimpleRevenue [exSeller] [exProduct] [exRecordTA]).filter
          (fun s => decide (s.profit = q)))) :=
  ⟨by decide,
    c6_output_sorted_stable_ranked [exSeller] [exProduct] [exRecordTA]
      calculateSimpleRevenue calculateBonusByProfitM [exReportTA] (by decide)⟩

/-! ### Rounding-policy probe input -/

/-- Line item whose exact revenue is 0.005: two of them sum to 0.01in full
precision, but to 0.02 if each is rounded to two decimals first. -/
def c8Item : LineItem := { sku := "P1", sale_price := 0.01, discount := 50, quantity := 1 }

/-- Product with zero cost, so profit equals revenue. -/
def c8Product : Product := { sku := "P1", purchase_price := 0, name := "Widget" }

def c8Record : PurchaseRecord :=
  { seller_id := "S1", total_amount := some 0.01, items := [c8Item, c8Item] }

def c8Data : RawDataSet :=
  { sellers := some [exSeller], products := some [c8Product],
    purchase_records := some [c8Record] }

/-- C8: rounding happens at projection time only.  On two line items of
exact revenue 0.005 each (zero cost), main.js reports profit 0.01 — the
two-decimal rounding of the full-precision sum — and not 0.02, the value
that accumulating already-rounded line revenues would give; the only
rounded outputs are the final revenue/profit/bonus and per-product
projections.  part_000 instead rounds each line revenue with `toFixed(2)`
and feeds the result back into the running revenue accumulator (as a string
concatenation), and its projection then fails with a `TypeError`. -/
theorem c8_rounding_at_projection_only :
    analyzeSalesDataM (some c8Data) (some exOptionsM) =
      .ok [{ seller_id := "S1", name := "A B", revenue := some 0.01, profit := 0.01,
             sales_count := 1, top_products := [{ sku := "P1", quantity := 2 }],
             bonus := 1.5 }] ∧
    calculateSimpleRevenue c8Item c8Product = 0.005 ∧
    toFixed2R (calculateSimpleRevenue c8Item c8Product) +
      toFixed2R (calculateSimpleRevenue c8Item c8Product) = 0.02 ∧
    toFixed2R (calculateSimpleRevenue c8Item c8Product +
      calculateSimpleRevenue c8Item c8Product) = 0.01 ∧
    (0.01 : ℚ) ≠ 0.02 ∧
    analyzeSalesDataP (some c8Data) (some exOptionsP) = .error .typeError :=
  ⟨by decide, by decide, by decide, by decide, by decide, by decide⟩

/-! ### Removing unmatched records and items -/

/-- The input with unmatched purchase records removed and, within the kept
records, unmatched line items removed. -/
def filterRecordsFor (sellers : List Seller) (products : List Product)
    (records : List PurchaseRecord) : List PurchaseRecord :=
  (records.filter (fun r => sellers.any (fun s => decide (s.id = r.seller_id)))).map
    (fun r =>
      { r with
        items := r.items.filter (fun it => products.any (fun p => decide (p.sku = it.sku))) })

theorem objLookup_none_of_any_false {α : Type} {key : α → String} {k : String}
    {l : List α} (h : l.any (fun x => decide (key x = k)) = false) :
    objLookup key l k = none := by
  refine objLookup_eq_none ?_
  intro x hx hkx
  rw [List.any_eq_false] at h
  exact absurd (by simpa using hkx) (h x hx)

theorem processItemM_skip {cr : LineItem → Product → ℚ} {ps : List Product}
    {s : StatM} {it : LineItem} (h : objLookup Product.sku ps it.sku = none) :
    processItemM cr ps s it = s := by
  rw [processItemM, h]

theorem processItemP_skip {cr : LineItem → Product → ℚ} {ps : List Product}
    {s : StatP} {it : LineItem} (h : objLookup Product.sku ps it.sku = none) :
    processItemP cr ps s it = s := by
  rw [processItemP, h]

theorem itemfold_filter_M (cr : LineItem → Product → ℚ) (ps : List Product)
    (items : List LineItem) (s : StatM) :
    items.foldl (processItemM cr ps) s =
      (items.filter (fun it => ps.any (fun p => decide (p.sku = it.sku)))).foldl
        (processItemM cr ps) s := by
  refine foldl_filter_inv (fun _ => True) (fun _ _ _ => trivial) ?_ items s trivial
  intro t it _ hfalse
  exact processItemM_skip (objLookup_none_of_any_false hfalse)

theorem itemfold_filter_P (cr : LineItem → Product → ℚ) (ps : List Product)
    (items : List LineItem) (s : StatP) :
    items.foldl (processItemP cr ps) s =
      (items.filter (fun it => ps.any (fun p => decide (p.sku = it.sku)))).foldl
        (processItemP cr ps) s := by
  refine foldl_filter_inv (fun _ => True) (fun _ _ _ => trivial) ?_ items s trivial
  intro t it _ hfalse
  exact processItemP_skip (objLookup_none_of_any_false hfalse)

theorem recordBodyM_shrink (cr : LineItem → Product → ℚ) (ps : List Product)
    (r : PurchaseRecord) :
    recordBodyM cr ps
        { r with
          items := r.items.filter (fun it => ps.any (fun p => decide (p.sku = it.sku))) } =
      recordBodyM cr ps r := by
  funext s
  rw [recordBodyM, recordBodyM]
  exact (itemfold_filter_M cr ps r.items _).symm

theorem recordBodyP_shrink (cr : LineItem → Product → ℚ) (ps : List Product)
    (r : PurchaseRecord) :
    recordBodyP cr ps
        { r with
          items := r.items.filter (fun it => ps.any (fun p => decide (p.sku = it.sku))) } =
      recordBodyP cr ps r := by
  funext s
  rw [recordBodyP, recordBodyP]
  exact (itemfold_filter_P cr ps r.items _).symm

theorem processItemP_seller_id (cr : LineItem → Product → ℚ) (ps : List Product)
    (s : StatP) (it : LineItem) : (processItemP cr ps s it).seller_id = s.seller_id := by
  rw [processItemP]
  cases objLookup Product.sku ps it.sku <;> rfl

theorem recordBodyP_seller_id (cr : LineItem → Product → ℚ) (ps : List Product)
    (r : PurchaseRecord) (s : StatP) : (recordBodyP cr ps r s).seller_id = s.seller_id := by
  rw [recordBodyP]
  exact foldl_key_const StatP.seller_id (fun s a => processItemP_seller_id cr ps s a) r.items _

theorem processRecordP_map_seller_id (cr : LineItem → Product → ℚ) (ps : List Product)
    (stats : List StatP) (r : PurchaseRecord) :
    (processRecordP cr ps stats r).map StatP.seller_id = stats.map StatP.seller_id := by
  rw [processRecordP]
  exact updateLastIf_map_key (fun s => recordBodyP_seller_id cr ps r s) stats

theorem recordfold_filter_M (cr : LineItem → Product → ℚ) (sellers : List Seller)
    (ps : List Product) (records : List PurchaseRecord) :
    records.foldl (processRecordM cr ps) (sellers.map mkStatM) =
      (records.filter (fun r => sellers.any (fun s => decide (s.id = r.seller_id)))).foldl
        (processRecordM cr ps) (sellers.map mkStatM) := by
  refine foldl_filter_inv
    (fun stats => stats.map StatM.seller_id = sellers.map Seller.id)
    ?_ ?_ records (sellers.map mkStatM) ?_
  · intro stats r hinv
    rw [processRecordM_map_seller_id, hinv]
  · intro stats r hinv hfalse
    rw [processRecordM]
    refine updateLastIf_of_all_neg ?_
    intro s hs
    rw [List.any_eq_false] at hfalse
    by_cases hid : s.seller_id = r.seller_id
    · exfalso
      have hmem : s.seller_id ∈ sellers.map Seller.id := by
        rw [← hinv]
        exact List.mem_map_of_mem StatM.seller_id hs
      rcases List.mem_map.mp hmem with ⟨z, hz, hzid⟩
      exact hfalse z hz (by simp [hzid, hid])
    · simp [hid]
  · show (sellers.map mkStatM).map StatM.seller_id = sellers.map Seller.id
    rw [List.map_map]
    rfl

theorem recordfold_filter_P (cr : LineItem → Product → ℚ) (sellers : List Seller)
    (ps : List Product) (records : List PurchaseRecord) :
    records.foldl (processRecordP cr ps) (sellers.map mkStatP) =
      (records.filter (fun r => sellers.any (fun s => decide (s.id = r.seller_id)))).foldl
        (processRecordP cr ps) (sellers.map mkStatP) := by
  refine foldl_filter_inv
    (fun stats => stats.map StatP.seller_id = sellers.map Seller.id)
    ?_ ?_ records (sellers.map mkStatP) ?_
  · intro stats r hinv
    rw [processRecordP_map_seller_id, hinv]
  · intro stats r hinv hfalse
    rw [processRecordP]
    refine updateLastIf_of_all_neg ?_
    intro s hs
    rw [List.any_eq_false] at hfalse
    by_cases hid : s.seller_id = r.seller_id
    · exfalso
      have hmem : s.seller_id ∈ sellers.map Seller.id := by
        rw [← hinv]
        exact List.mem_map_of_mem StatP.seller_id hs
      rcases List.mem_map.mp hmem with ⟨z, hz, hzid⟩
      exact hfalse z hz (by simp [hzid, hid])
    · simp [hid]
  · show (sellers.map mkStatP).map StatP.seller_id = sellers.map Seller.id
    rw [List.map_map]
    rfl

theorem aggregateM_filter (cr : LineItem → Product → ℚ) (sellers : List Seller)
    (ps : List Product) (records : List PurchaseRecord) :
    aggregateM cr sellers ps records =
      aggregateM cr sellers ps (filterRecordsFor sellers ps records) := by
  rw [aggregateM, aggregateM, filterRecordsFor, recordfold_filter_M, List.foldl_map]
  refine foldl_congr_step ?_ _ _
  intro stats r
  dsimp only
  rw [processRecordM, processRecordM, recordBodyM_shrink]

theorem aggregateP_filter (cr : LineItem → Product → ℚ) (sellers : List Seller)
    (ps : List Product) (records : List PurchaseRecord) :
    aggregateP cr sellers ps records =
      aggregateP cr sellers ps (filterRecordsFor sellers ps records) := by
  rw [aggregateP, aggregateP, filterRecordsFor, recordfold_filter_P, List.foldl_map]
  refine foldl_congr_step ?_ _ _
  intro stats r
  dsimp only
  rw [processRecordP, processRecordP, recordBodyP_shrink]

theorem analyzeSalesDataM_eval {sellers : List Seller} {products : List Product}
    {records : List PurchaseRecord} {cr : LineItem → Product → ℚ}
    {cb : ℕ → ℕ → StatM → ℚ} (hs : sellers ≠ []) (hp : products ≠ [])
    (hr : records ≠ []) :
    analyzeSalesDataM (some ⟨some sellers, some products, some records⟩)
      (some ⟨some cr, some cb⟩) = .ok (analyzeCoreM cr cb sellers products records) := by
  simp only [analyzeSalesDataM]
  rw [if_neg (by simpa using hr), if_neg (by simpa using hp), if_neg (by simpa using hs)]

theorem analyzeSalesDataP_eval {sellers : List Seller} {products : List Product}
    {records : List PurchaseRecord} {cr : LineItem → Product → ℚ}
    {cb : ℕ → ℕ → StatP → ℚ} (hs : sellers ≠ []) (hp : products ≠ [])
    (hr : records ≠ []) :
    analyzeSalesDataP (some ⟨some sellers, some products, some records⟩)
      (some ⟨some cr, some cb⟩) = analyzeCoreP cr cb sellers products records := by
  simp only [analyzeSalesDataP]
  rw [if_neg (by simpa using hr), if_neg (by simpa using hp), if_neg (by simpa using hs)]

/-- C4 (amended): unmatched purchase records and unmatched line items are
silently skipped and contribute nothing, so — as long as at least one
purchase record survives the removal (otherwise the filtered input fails the
non-emptiness validation) — both variants produce on the original input
exactly what they produce on the input with the unmatched records and items
removed. -/
theorem c4_unmatched_contribute_nothing
    (sellers : List Seller) (products : List Product) (records : List PurchaseRecord)
    (cr : LineItem → Product → ℚ) (cbM : ℕ → ℕ → StatM → ℚ) (cbP : ℕ → ℕ → StatP → ℚ)
    (hs : sellers ≠ []) (hp : products ≠ [])
    (hf : filterRecordsFor sellers products records ≠ []) :
    analyzeSalesDataM (some ⟨some sellers, some products, some records⟩)
        (some ⟨some cr, some cbM⟩) =
      analyzeSalesDataM (some ⟨some sellers, some products,
        some (filterRecordsFor sellers products records)⟩) (some ⟨some cr, some cbM⟩) ∧
    analyzeSalesDataP (some ⟨some sellers, some products, some records⟩)
        (some ⟨some cr, some cbP⟩) =
      analyzeSalesDataP (some ⟨some sellers, some products,
        some (filterRecordsFor sellers products records)⟩) (some ⟨some cr, some cbP⟩) := by
  have hr : records ≠ [] := by
    intro hnil
    rw [hnil] at hf
    exact hf rfl
  constructor
  · rw [analyzeSalesDataM_eval hs hp hr, analyzeSalesDataM_eval hs hp hf,
      analyzeCoreM, analyzeCoreM, aggregateM_filter]
  · rw [analyzeSalesDataP_eval hs hp hr, analyzeSalesDataP_eval hs hp hf,
      analyzeCoreP, analyzeCoreP, aggregateP_filter]

/-- Purchase record whose seller id matches no seller of the worked example. -/
def c4BadRecord : PurchaseRecord := { seller_id := "S2", items := [exItem] }

/-- Line item whose SKU matches no product of the worked example. -/
def c4BadItem : LineItem := { sku := "NOPE", sale_price := 5, discount := 0, quantity := 1 }

/-- C4 counterexample: when every purchase record is unmatched, the claimed
equality with the filtered input fails — the original input yields a report
of all-zero accumulators, while the input with the unmatched records removed
has an empty `purchase_records` and fails validation instead. -/
theorem c4_filter_counterexample :
    filterRecordsFor [exSeller] [exProduct] [c4BadRecord] = [] ∧
    analyzeSalesDataM (some ⟨some [exSeller], some [exProduct], some [c4BadRecord]⟩)
      (some exOptionsM) =
      .ok [{ seller_id := "S1", name := "A B", revenue := some 0, profit := 0,
             sales_count := 0, top_products := [], bonus := 0 }] ∧
    analyzeSalesDataM (some ⟨some [exSeller], some [exProduct],
        some (filterRecordsFor [exSeller] [exProduct] [c4BadRecord])⟩)
      (some exOptionsM) = .error .invalidRecords :=
  ⟨by decide, by decide, by decide⟩

/-- C4 witness: on a mix of one matched record carrying an unmatched item,
one record with an unknown seller, and one matched record with only an
unknown SKU, both variants agree with the run on the filtered input. -/
theorem c4_unmatched_witness :
    (([exSeller] : List Seller) ≠ [] ∧ ([exProduct] : List Product) ≠ [] ∧
      filterRecordsFor [exSeller] [exProduct]
        [{ seller_id := "S1", total_amount := some 100, items := [exItem, c4BadItem] },
         c4BadRecord,
         { seller_id := "S1", items := [c4BadItem] }] ≠ []) ∧
    (analyzeSalesDataM (some ⟨some [exSeller], some [exProduct],
        some [{ seller_id := "S1", total_amount := some 100, items := [exItem, c4BadItem] },
          c4BadRecord, { seller_id := "S1", items := [c4BadItem] }]⟩)
        (some exOptionsM) =
      analyzeSalesDataM (some ⟨some [exSeller], some [exProduct],
        some (filterRecordsFor [exSeller] [exProduct]
          [{ seller_id := "S1", total_amount := some 100, items := [exItem, c4BadItem] },
           c4BadRecord, { seller_id := "S1", items := [c4BadItem] }])⟩)
        (some exOptionsM) ∧
    analyzeSalesDataP (some ⟨some [exSeller], some [exProduct],
        some [{ seller_id := "S1", total_amount := some 100, items := [exItem, c4BadItem] },
          c4BadRecord, { seller_id := "S1", items := [c4BadItem] }]⟩)
        (some exOptionsP) =
      analyzeSalesDataP (some ⟨some [exSeller], some [exProduct],
        some (filterRecordsFor [exSeller] [exProduct]
          [{ seller_id := "S1", total_amount := some 100, items := [exItem, c4BadItem] },
           c4BadRecord, { seller_id := "S1", items := [c4BadItem] }])⟩)
        (some exOptionsP)) :=
  ⟨⟨by decide, by decide, by decide⟩,
    c4_unmatched_contribute_nothing [exSeller] [exProduct]
      [{ seller_id := "S1", total_amount := some 100, items := [exItem, c4BadItem] },
       c4BadRecord, { seller_id := "S1", items := [c4BadItem] }]
      calculateSimpleRevenue calculateBonusByProfitM calculateBonusByProfitP
      (by decide) (by decide) (by decide)⟩

/-! ### Per-SKU quantity accounting (main.js) -/

/-- First-match lookup of the accumulated quantity for a SKU in a
`products_sold` association list (JavaScript objects hold one entry per
key), defaulting to 0 for an absent key. -/
def qtyLookup : List (String × ProdAggM) → String → ℚ
  | [], _ => 0
  | (k, a) :: rest, sku => if k = sku then a.quantity else qtyLookup rest sku

/-- Quantity of matched line items carrying a SKU, across the line items of
one record. -/
def itemsQty (products : List Product) (items : List LineItem) (sku : String) : ℚ :=
  ((items.filter (fun it => decide (it.sku = sku) &&
      (objLookup Product.sku products it.sku).isSome)).map LineItem.quantity).sum

/-- Total quantity of a SKU sold by a seller across all of the seller's
purchase records, counting only line items whose SKU resolves in the
product index. -/
def skuQtyM (products : List Product) (records : List PurchaseRecord)
    (sid sku : String) : ℚ :=
  ((records.filter (fun r => decide (r.seller_id = sid))).map
    (fun r => itemsQty products r.items sku)).sum

/-- The pointwise bump applied by `updateAggM` on an existing key. -/
def bumpAgg (sku0 : String) (qty rev prof : ℚ) (e : String × ProdAggM) :
    String × ProdAggM :=
  if e.1 = sku0 then
    (e.1, { quantity := e.2.quantity + qty, revenue := e.2.revenue + rev,
            profit := e.2.profit + prof, name := e.2.name })
  else e

theorem updateAggM_eq_bump (l : List (String × ProdAggM)) (sku0 pname : String)
    (qty rev prof : ℚ) :
    updateAggM l sku0 pname qty rev prof =
      if l.any (fun e => e.1 = sku0) then l.map (bumpAgg sku0 qty rev prof)
      else l ++ [(sku0, { quantity := qty, revenue := rev, profit := prof, name := pname })] :=
  rfl

theorem bumpAgg_fst (sku0 : String) (qty rev prof : ℚ) (e : String × ProdAggM) :
    (bumpAgg sku0 qty rev prof e).1 = e.1 := by
  rw [bumpAgg]
  by_cases h : e.1 = sku0 <;> simp [h]

theorem updateAggM_keys_nodup {l : List (String × ProdAggM)} {sku pname : String}
    {qty rev prof : ℚ} (h : (l.map Prod.fst).Nodup) :
    ((updateAggM l sku pname qty rev prof).map Prod.fst).Nodup := by
  rw [updateAggM_eq_bump]
  by_cases hany : l.any (fun e => e.1 = sku)
  · rw [if_pos hany]
    have heq : (l.map (bumpAgg sku qty rev prof)).map Prod.fst = l.map Prod.fst := by
      rw [List.map_map]
      refine List.map_congr_left ?_
      intro e _
      exact bumpAgg_fst sku qty rev prof e
    rw [heq]
    exact h
  · rw [if_neg hany]
    rw [List.map_append, List.nodup_append]
    refine ⟨h, by simp, ?_⟩
    intro k hk
    simp only [List.map_cons, List.map_nil, List.mem_singleton]
    intro hkeq
    rcases List.mem_map.mp hk with ⟨e, he, hek⟩
    exact hany (List.any_eq_true.mpr ⟨e, he, by simp [hek, hkeq]⟩)

theorem qtyLookup_map_bump_other {sku0 sku : String} {qty rev prof : ℚ}
    (hne : ¬ sku0 = sku) :
    ∀ l : List (String × ProdAggM),
      qtyLookup (l.map (bumpAgg sku0 qty rev prof)) sku = qtyLookup l sku := by
  intro l
  induction l with
  | nil => rfl
  | cons e rest ih =>
    obtain ⟨k, a⟩ := e
    rw [List.map_cons]
    by_cases hk : k = sku0
    · rw [show bumpAgg sku0 qty rev prof (k, a) =
          (k, { quantity := a.quantity + qty, revenue := a.revenue + rev,
                profit := a.profit + prof, name := a.name }) from by simp [bumpAgg, hk]]
      rw [qtyLookup, qtyLookup]
      have hks : ¬ k = sku := fun hc => hne (hk ▸ hc)
      rw [if_neg hks, if_neg hks]
      exact ih
    · rw [show bumpAgg sku0 qty rev prof (k, a) = (k, a) from by simp [bumpAgg, hk]]
      rw [qtyLookup, qtyLookup]
      by_cases hks : k = sku
      · rw [if_pos hks, if_pos hks]
      · rw [if_neg hks, if_neg hks]
        exact ih

theorem qtyLookup_map_bump {sku0 sku : String} {qty rev prof : ℚ} :
    ∀ l : List (String × ProdAggM), l.any (fun e => e.1 = sku0) = true →
      qtyLookup (l.map (bumpAgg sku0 qty rev prof)) sku =
        qtyLookup l sku + (if sku0 = sku then qty else 0) := by
  intro l
  induction l with
  | nil => intro h; simp at h
  | cons e rest ih =>
    intro hany
    obtain ⟨k, a⟩ := e
    rw [List.map_cons]
    by_cases hk : k = sku0
    · rw [show bumpAgg sku0 qty rev prof (k, a) =
          (k, { quantity := a.quantity + qty, revenue := a.revenue + rev,
                profit := a.profit + prof, name := a.name }) from by simp [bumpAgg, hk]]
      rw [qtyLookup, qtyLookup]
      by_cases hks : k = sku
      · rw [if_pos hks, if_pos hks, if_pos (hk ▸ hks)]
      · rw [if_neg hks, if_neg hks]
        have hne : ¬ sku0 = sku := fun hc => hks (hk.symm ▸ hc ▸ rfl)
        rw [if_neg hne, add_zero]
        exact qtyLookup_map_bump_other hne rest
    · rw [show bumpAgg sku0 qty rev prof (k, a) = (k, a) from by simp [bumpAgg, hk]]
      rw [qtyLookup, qtyLookup]
      have hrest : rest.any (fun e => e.1 = sku0) = true := by
        rcases List.any_eq_true.mp hany with ⟨e, he, heq⟩
        rcases List.mem_cons.mp he with rfl | he2
        · exact absurd (by simpa using heq) hk
        · exact List.any_eq_true.mpr ⟨e, he2, heq⟩
      by_cases hks : k = sku
      · rw [if_pos hks, if_pos hks]
        have hne : ¬ sku0 = sku := fun hc => hk (hks ▸ hc ▸ rfl)
        rw [if_neg hne, add_zero]
      · rw [if_neg hks, if_neg hks]
        exact ih hrest

theorem qtyLookup_append_absent {sku0 sku : String} {mk : ProdAggM} :
    ∀ l : List (String × ProdAggM), l.any (fun e => e.1 = sku0) = false →
      qtyLookup (l ++ [(sku0, mk)]) sku =
        qtyLookup l sku + (if sku0 = sku then mk.quantity else 0) := by
  intro l
  induction l with
  | nil =>
    intro _
    rw [List.nil_append, qtyLookup, qtyLookup]
    by_cases hks : sku0 = sku
    · rw [if_pos hks, if_pos hks, zero_add]
    · rw [if_neg hks, if_neg hks, qtyLookup, add_zero]
  | cons e rest ih =>
    intro hany
    obtain ⟨k, a⟩ := e
    rw [List.any_eq_false] at hany
    have hk : ¬ k = sku0 := by
      intro hc
      exact hany (k, a) (List.mem_cons_self _ _) (by simp [hc])
    rw [List.cons_append, qtyLookup, qtyLookup]
    by_cases hks : k = sku
    · rw [if_pos hks, if_pos hks]
      have hne : ¬ sku0 = sku := fun hc => hk (hks ▸ hc ▸ rfl)
      rw [if_neg hne, add_zero]
    · rw [if_neg hks, if_neg hks]
      refine ih ?_
      rw [List.any_eq_false]
      intro e2 he2
      exact hany e2 (List.mem_cons_of_mem _ he2)

theorem qtyLookup_updateAggM (l : List (String × ProdAggM)) (sku0 pname : String)
    (qty rev prof : ℚ) (sku : String) :
    qtyLookup (updateAggM l sku0 pname qty rev prof) sku =
      qtyLookup l sku + (if sku0 = sku then qty else 0) := by
  rw [updateAggM_eq_bump]
  by_cases hany : l.any (fun e => e.1 = sku0)
  · rw [if_pos hany]
    exact qtyLookup_map_bump l hany
  · rw [if_neg hany]
    exact qtyLookup_append_absent l (Bool.eq_false_iff.mpr hany)

theorem qtyLookup_of_mem {l : List (String × ProdAggM)} {sku : String} {agg : ProdAggM}
    (hnd : (l.map Prod.fst).Nodup) (hmem : (sku, agg) ∈ l) :
    qtyLookup l sku = agg.quantity := by
  induction l with
  | nil => simp at hmem
  | cons e rest ih =>
    rcases e with ⟨k, a⟩
    rw [List.map_cons, List.nodup_cons] at hnd
    rcases List.mem_cons.mp hmem with heq | hrest
    · rw [qtyLookup]
      obtain ⟨hk, ha⟩ := Prod.mk.injEq .. ▸ heq.symm
      rw [if_pos hk, ha]
    · rw [qtyLookup]
      have hk : ¬ k = sku := by
        intro hc
        have hskum : sku ∈ List.map Prod.fst rest := List.mem_map_of_mem Prod.fst hrest
        exact hnd.1 (by rw [hc]; exact hskum)
      rw [if_neg hk]
      exact ih hnd.2 hrest

theorem itemfold_qty (cr : LineItem → Product → ℚ) (products : List Product) :
    ∀ (items : List LineItem) (s : StatM),
      (s.products_sold.map Prod.fst).Nodup →
      (((items.foldl (processItemM cr products) s).products_sold.map Prod.fst).Nodup ∧
       ∀ sku, qtyLookup ((items.foldl (processItemM cr products) s).products_sold) sku =
         qtyLookup s.products_sold sku + itemsQty products items sku) := by
  intro items
  induction items with
  | nil =>
    intro s h
    refine ⟨h, fun sku => ?_⟩
    rw [itemsQty]
    simp
  | cons it rest ih =>
    intro s h
    rw [List.foldl_cons]
    cases hl : objLookup Product.sku products it.sku with
    | none =>
      rw [processItemM_skip hl]
      obtain ⟨h1, h2⟩ := ih s h
      refine ⟨h1, fun sku => ?_⟩
      rw [h2 sku]
      congr 1
      rw [itemsQty, itemsQty, List.filter_cons, if_neg (by simp [hl])]
    | some product =>
      have hstep : (processItemM cr products s it).products_sold =
          updateAggM s.products_sold it.sku product.name it.quantity (cr it product)
            (cr it product - product.purchase_price * it.quantity) := by
        simp [processItemM, hl]
      obtain ⟨h1, h2⟩ := ih (processItemM cr products s it)
        (by rw [hstep]; exact updateAggM_keys_nodup h)
      refine ⟨h1, fun sku => ?_⟩
      rw [h2 sku, hstep, qtyLookup_updateAggM]
      rw [itemsQty, itemsQty, List.filter_cons]
      by_cases hsk : it.sku = sku
      · rw [if_pos (show (decide (it.sku = sku) &&
            (objLookup Product.sku products it.sku).isSome) = true from by
              subst hsk; simp [hl]),
          if_pos hsk, List.map_cons, List.sum_cons]
        ring
      · rw [if_neg (show ¬ ((decide (it.sku = sku) &&
            (objLookup Product.sku products it.sku).isSome) = true) from by simp [hsk]),
          if_neg hsk, add_zero]

theorem recordBodyM_products_qty (cr : LineItem → Product → ℚ) (products : List Product)
    (r : PurchaseRecord) (t : StatM) (h : (t.products_sold.map Prod.fst).Nodup) :
    (((recordBodyM cr products r t).products_sold.map Prod.fst).Nodup ∧
     ∀ sku, qtyLookup (recordBodyM cr products r t).products_sold sku =
       qtyLookup t.products_sold sku + itemsQty products r.items sku) := by
  rw [recordBodyM]
  exact itemfold_qty cr products r.items _ h

theorem skuQtyM_cons (products : List Product) (r : PurchaseRecord)
    (rest : List PurchaseRecord) (sid sku : String) :
    skuQtyM products (r :: rest) sid sku =
      (if r.seller_id = sid then itemsQty products r.items sku else 0) +
        skuQtyM products rest sid sku := by
  rw [skuQtyM, skuQtyM, List.filter_cons]
  by_cases hc : r.seller_id = sid
  · rw [if_pos (by simpa using hc), if_pos hc, List.map_cons, List.sum_cons]
  · rw [if_neg (by simpa using hc), if_neg hc, zero_add]

theorem aggfold_qty (cr : LineItem → Product → ℚ) (products : List Product) :
    ∀ (records : List PurchaseRecord) (stats : List StatM) (pre : String → String → ℚ),
      (stats.map StatM.seller_id).Nodup →
      (∀ stat ∈ stats, (stat.products_sold.map Prod.fst).Nodup ∧
        ∀ sku, qtyLookup stat.products_sold sku = pre stat.seller_id sku) →
      ∀ stat ∈ records.foldl (processRecordM cr products) stats,
        (stat.products_sold.map Prod.fst).Nodup ∧
        ∀ sku, qtyLookup stat.products_sold sku =
          pre stat.seller_id sku + skuQtyM products records stat.seller_id sku := by
  intro records
  induction records with
  | nil =>
    intro stats pre _ hpre stat hstat
    obtain ⟨h1, h2⟩ := hpre stat hstat
    refine ⟨h1, fun sku => ?_⟩
    rw [h2 sku, skuQtyM]
    simp
  | cons r rest ih =>
    intro stats pre hnd hpre stat hstat
    rw [List.foldl_cons] at hstat
    have hple : stats.countP (fun s => decide (s.seller_id = r.seller_id)) ≤ 1 :=
      nodup_countP_le_one hnd
    have hstats' : processRecordM cr products stats r =
        mapIf (fun s => decide (s.seller_id = r.seller_id)) (recordBodyM cr products r) stats := by
      rw [processRecordM, updateLastIf_eq_mapIf hple]
    have hnd' : ((processRecordM cr products stats r).map StatM.seller_id).Nodup := by
      rw [processRecordM_map_seller_id]; exact hnd
    have hpre2 : ∀ s ∈ processRecordM cr products stats r,
        (s.products_sold.map Prod.fst).Nodup ∧
        ∀ sku, qtyLookup s.products_sold sku =
          (fun sid sku => if r.seller_id = sid then
            pre sid sku + itemsQty products r.items sku else pre sid sku) s.seller_id sku := by
      intro s hs
      rw [hstats', mapIf] at hs
      rcases List.mem_map.mp hs with ⟨t, ht, hts⟩
      obtain ⟨ht1, ht2⟩ := hpre t ht
      by_cases hid : t.seller_id = r.seller_id
      · rw [if_pos (by simpa using hid)] at hts
        obtain ⟨hb1, hb2⟩ := recordBodyM_products_qty cr products r t ht1
        constructor
        · rw [← hts]; exact hb1
        · intro sku
          rw [← hts]
          dsimp only
          rw [hb2 sku, ht2 sku, recordBodyM_seller_id, hid, if_pos rfl]
      · rw [if_neg (by simpa using hid)] at hts
        rw [← hts]
        dsimp only
        refine ⟨ht1, fun sku => ?_⟩
        rw [ht2 sku, if_neg (fun hc => hid (Eq.symm hc))]
    obtain ⟨h1, h2⟩ := ih (processRecordM cr products stats r)
      (fun sid sku => if r.seller_id = sid then
        pre sid sku + itemsQty products r.items sku else pre sid sku)
      hnd' hpre2 stat hstat
    refine ⟨h1, fun sku => ?_⟩
    rw [h2 sku, skuQtyM_cons]
    by_cases hc : r.seller_id = stat.seller_id
    · rw [if_pos hc, if_pos hc]
      ring
    · rw [if_neg hc, if_neg hc, zero_add]

theorem aggregateM_qty (cr : LineItem → Product → ℚ) (sellers : List Seller)
    (products : List Product) (records : List PurchaseRecord)
    (hnd : (sellers.map Seller.id).Nodup) :
    ∀ stat ∈ aggregateM cr sellers products records,
      (stat.products_sold.map Prod.fst).Nodup ∧
      ∀ sku, qtyLookup stat.products_sold sku =
        skuQtyM products records stat.seller_id sku := by
  intro stat hstat
  obtain ⟨h1, h2⟩ := aggfold_qty cr products records (sellers.map mkStatM)
    (fun _ _ => 0)
    (by
      rw [List.map_map]
      show (sellers.map (StatM.seller_id ∘ mkStatM)).Nodup
      simpa [Function.comp, mkStatM] using hnd)
    (by
      intro st hst
      rcases List.mem_map.mp hst with ⟨z, _, hz⟩
      rw [← hz]
      exact ⟨List.nodup_nil, fun sku => rfl⟩)
    stat hstat
  exact ⟨h1, fun sku => by rw [h2 sku, zero_add]⟩

/-! ### Per-SKU insertion order of the accumulated keys -/

/-- One step of first-occurrence accumulation: append the key if unseen. -/
def occStep (acc : List String) (x : String) : List String :=
  if acc.any (fun y => y = x) then acc else acc ++ [x]

/-- The keys of a stream in order of first occurrence: per-SKU insertion
order. -/
def firstOccur (l : List String) : List String := l.foldl occStep []

/-- The stream of SKUs of a seller's matched line items, in processing
order. -/
def matchedSkusM (products : List Product) (records : List PurchaseRecord)
    (sid : String) : List String :=
  ((records.filter (fun r => decide (r.seller_id = sid))).map
    (fun r => (r.items.filter
      (fun it => (objLookup Product.sku products it.sku).isSome)).map LineItem.sku)).flatten

theorem updateAggM_keys (l : List (String × ProdAggM)) (sku0 pname : String)
    (qty rev prof : ℚ) :
    (updateAggM l sku0 pname qty rev prof).map Prod.fst =
      occStep (l.map Prod.fst) sku0 := by
  rw [updateAggM_eq_bump, occStep]
  have hany : ∀ m : List (String × ProdAggM),
      (m.map Prod.fst).any (fun y => y = sku0) = m.any (fun e => e.1 = sku0) := by
    intro m
    induction m with
    | nil => rfl
    | cons e rest ih => rw [List.map_cons, List.any_cons, List.any_cons, ih]
  by_cases h : l.any (fun e => e.1 = sku0)
  · rw [if_pos h, if_pos (by rw [hany l]; exact h), List.map_map]
    refine List.map_congr_left ?_
    intro e _
    exact bumpAgg_fst sku0 qty rev prof e
  · rw [if_neg h, if_neg (by rw [hany l]; exact h), List.map_append]
    rfl

theorem itemfold_keys (cr : LineItem → Product → ℚ) (products : List Product) :
    ∀ (items : List LineItem) (s : StatM),
      (items.foldl (processItemM cr products) s).products_sold.map Prod.fst =
        ((items.filter (fun it => (objLookup Product.sku products it.sku).isSome)).map
          LineItem.sku).foldl occStep (s.products_sold.map Prod.fst) := by
  intro items
  induction items with
  | nil => intro s; rfl
  | cons it rest ih =>
    intro s
    rw [List.foldl_cons, List.filter_cons]
    cases hl : objLookup Product.sku products it.sku with
    | none =>
      rw [processItemM_skip hl, if_neg (by simp [hl])]
      exact ih s
    | some product =>
      rw [if_pos (by simp [hl]), List.map_cons, List.foldl_cons, ih]
      have hstep : (processItemM cr products s it).products_sold =
          updateAggM s.products_sold it.sku product.name it.quantity (cr it product)
            (cr it product - product.purchase_price * it.quantity) := by
        simp [processItemM, hl]
      rw [hstep, updateAggM_keys]

theorem recordBodyM_keys (cr : LineItem → Product → ℚ) (products : List Product)
    (r : PurchaseRecord) (t : StatM) :
    (recordBodyM cr products r t).products_sold.map Prod.fst =
      ((r.items.filter (fun it => (objLookup Product.sku products it.sku).isSome)).map
        LineItem.sku).foldl occStep (t.products_sold.map Prod.fst) := by
  rw [recordBodyM]
  exact itemfold_keys cr products r.items _

theorem matchedSkusM_cons (products : List Product) (r : PurchaseRecord)
    (rest : List PurchaseRecord) (sid : String) :
    matchedSkusM products (r :: rest) sid =
      (if r.seller_id = sid then
        (r.items.filter (fun it => (objLookup Product.sku products it.sku).isSome)).map
          LineItem.sku
      else []) ++ matchedSkusM products rest sid := by
  rw [matchedSkusM, matchedSkusM, List.filter_cons]
  by_cases hc : r.seller_id = sid
  · rw [if_pos (by simpa using hc), if_pos hc, List.map_cons]
    rfl
  · rw [if_neg (by simpa using hc), if_neg hc, List.nil_append]

theorem aggfold_keys (cr : LineItem → Product → ℚ) (products : List Product) :
    ∀ (records : List PurchaseRecord) (stats : List StatM) (pre : String → List String),
      (stats.map StatM.seller_id).Nodup →
      (∀ stat ∈ stats, stat.products_sold.map Prod.fst = pre stat.seller_id) →
      ∀ stat ∈ records.foldl (processRecordM cr products) stats,
        stat.products_sold.map Prod.fst =
          (matchedSkusM products records stat.seller_id).foldl occStep
            (pre stat.seller_id) := by
  intro records
  induction records with
  | nil =>
    intro stats pre _ hpre stat hstat
    exact hpre stat hstat
  | cons r rest ih =>
    intro stats pre hnd hpre stat hstat
    rw [List.foldl_cons] at hstat
    have hple : stats.countP (fun s => decide (s.seller_id = r.seller_id)) ≤ 1 :=
      nodup_countP_le_one hnd
    have hstats' : processRecordM cr products stats r =
        mapIf (fun s => decide (s.seller_id = r.seller_id)) (recordBodyM cr products r) stats := by
      rw [processRecordM, updateLastIf_eq_mapIf hple]
    have hnd' : ((processRecordM cr products stats r).map StatM.seller_id).Nodup := by
      rw [processRecordM_map_seller_id]
      exact hnd
    have hpre2 : ∀ s ∈ processRecordM cr products stats r,
        s.products_sold.map Prod.fst =
          (fun sid => if r.seller_id = sid then
            ((r.items.filter (fun it => (objLookup Product.sku products it.sku).isSome)).map
              LineItem.sku).foldl occStep (pre sid)
          else pre sid) s.seller_id := by
      intro s hs
      rw [hstats', mapIf] at hs
      rcases List.mem_map.mp hs with ⟨t, ht, hts⟩
      by_cases hid : t.seller_id = r.seller_id
      · rw [if_pos (by simpa using hid)] at hts
        rw [← hts]
        dsimp only
        rw [recordBodyM_keys, recordBodyM_seller_id, hid, if_pos rfl, hpre t ht, hid]
      · rw [if_neg (by simpa using hid)] at hts
        rw [← hts]
        dsimp only
        rw [if_neg (fun hc => hid (Eq.symm hc)), hpre t ht]
    have hrec := ih (processRecordM cr products stats r)
      (fun sid => if r.seller_id = sid then
        ((r.items.filter (fun it => (objLookup Product.sku products it.sku).isSome)).map
          LineItem.sku).foldl occStep (pre sid)
      else pre sid)
      hnd' hpre2 stat hstat
    rw [hrec, matchedSkusM_cons, List.foldl_append]
    dsimp only
    by_cases hc : r.seller_id = stat.seller_id
    · rw [if_pos hc, if_pos hc]
    · rw [if_neg hc, if_neg hc]
      rfl

theorem aggregateM_keys (cr : LineItem → Product → ℚ) (sellers : List Seller)
    (products : List Product) (records : List PurchaseRecord)
    (hnd : (sellers.map Seller.id).Nodup) :
    ∀ stat ∈ aggregateM cr sellers products records,
      stat.products_sold.map Prod.fst =
        firstOccur (matchedSkusM products records stat.seller_id) := by
  intro stat hstat
  exact aggfold_keys cr products records (sellers.map mkStatM) (fun _ => [])
    (by
      rw [List.map_map]
      show (sellers.map (StatM.seller_id ∘ mkStatM)).Nodup
      simpa [Function.comp, mkStatM] using hnd)
    (by
      intro st hst
      rcases List.mem_map.mp hst with ⟨z, _, hz⟩
      rw [← hz]
      rfl)
    stat hstat

/-! ### The top-products tie order -/

/-- Product with an array-index SKU, inserted first by the probe record. -/
def c7ProductTen : Product := { sku := "10", purchase_price := 0, name := "Ten" }

/-- Product with a smaller array-index SKU, inserted second. -/
def c7ProductTwo : Product := { sku := "2", purchase_price := 0, name := "Two" }

def c7ItemTen : LineItem := { sku := "10", sale_price := 1, discount := 0, quantity := 1 }

def c7ItemTwo : LineItem := { sku := "2", sale_price := 1, discount := 0, quantity := 1 }

/-- Record selling SKU "10" first, then SKU "2", one unit each. -/
def c7Record : PurchaseRecord :=
  { seller_id := "S1", total_amount := some 2, items := [c7ItemTen, c7ItemTwo] }

def c7Data : RawDataSet :=
  { sellers := some [exSeller], products := some [c7ProductTen, c7ProductTwo],
    purchase_records := some [c7Record] }

/-- The report main.js produces on the tie-order probe input: the
equal-quantity SKUs come out in ascending numeric order "2", "10", not in
the insertion order "10", "2". -/
def c7Report : Report :=
  { seller_id := "S1", name := "A B", revenue := some 2, profit := 2,
    sales_count := 1,
    top_products := [{ sku := "2", quantity := 1 }, { sku := "10", quantity := 1 }],
    bonus := 300 }

/-- C7 counterexample: with the equal-quantity SKUs "10" (sold first) and
"2" (sold second), per-SKU insertion order is ["10", "2"], but the report
lists ["2", "10"]: `Object.entries` enumerates array-index keys first in
ascending numeric order, so the tie is NOT broken by per-SKU insertion
order. -/
theorem c7_tie_order_counterexample :
    matchedSkusM [c7ProductTen, c7ProductTwo] [c7Record] "S1" = ["10", "2"] ∧
    firstOccur (matchedSkusM [c7ProductTen, c7ProductTwo] [c7Record] "S1") = ["10", "2"] ∧
    analyzeSalesDataM (some c7Data) (some exOptionsM) = .ok [c7Report] ∧
    c7Report.top_products ≠
      [{ sku := "10", quantity := 1 }, { sku := "2", quantity := 1 }] :=
  ⟨by decide, by decide, by decide, by decide⟩

/-- C7 (amended): for every input accepted by main.js whose seller ids are
unique, each report's top-products list has at most ten entries, is sorted
by quantity descending, and each entry's quantity is the total quantity of
that SKU over the seller's matched line items; ties are broken not by pure
per-SKU insertion order but by the `Object.entries` enumeration order of
the accumulated keys (array-index SKUs first in ascending numeric order,
then the remaining SKUs in per-SKU insertion order): the report's list is
the take-10 prefix of the stable quantity-descending sort of exactly that
enumeration (the filter characterisation pins the tie order), and the
accumulated keys themselves are in per-SKU first-occurrence order. -/
theorem c7_amended_top_products
    (sellers : List Seller) (products : List Product) (records : List PurchaseRecord)
    (cr : LineItem → Product → ℚ) (cb : ℕ → ℕ → StatM → ℚ) (reports : List Report)
    (hnd : (sellers.map Seller.id).Nodup)
    (hok : analyzeSalesDataM (some ⟨some sellers, some products, some records⟩)
      (some ⟨some cr, some cb⟩) = .ok reports) :
    ∀ rep ∈ reports, ∃ stat ∈ aggregateM cr sellers products records,
      stat.seller_id = rep.seller_id ∧
      stat.products_sold.map Prod.fst =
        firstOccur (matchedSkusM products records stat.seller_id) ∧
      rep.top_products =
        ((sortDescBy (fun t : TopProdM => t.quantity)
          ((jsEntries stat.products_sold).map (fun e =>
            { sku := e.1, name := e.2.name, quantity := e.2.quantity,
              revenue := toFixed2R e.2.revenue, profit := toFixed2R e.2.profit }))).take
          10).map (fun t => { sku := t.sku, quantity := t.quantity }) ∧
      (∀ q : ℚ,
        (sortDescBy (fun t : TopProdM => t.quantity)
          ((jsEntries stat.products_sold).map (fun e =>
            { sku := e.1, name := e.2.name, quantity := e.2.quantity,
              revenue := toFixed2R e.2.revenue, profit := toFixed2R e.2.profit }))).filter
            (fun t => decide (t.quantity = q)) =
          ((jsEntries stat.products_sold).map (fun e =>
            { sku := e.1, name := e.2.name, quantity := e.2.quantity,
              revenue := toFixed2R e.2.revenue, profit := toFixed2R e.2.profit })).filter
            (fun t => decide (t.quantity = q))) ∧
      rep.top_products.length ≤ 10 ∧
      rep.top_products.Pairwise (fun a b => b.quantity ≤ a.quantity) ∧
      (∀ tp ∈ rep.top_products,
        tp.quantity = skuQtyM products records rep.seller_id tp.sku) := by
  intro rep hrep
  rw [analyzeSalesDataM_ok hok, analyzeCoreM] at hrep
  rcases List.mem_map.mp hrep with ⟨rk, hrk, hproj⟩
  rcases mem_rankSellersAuxM hrk with ⟨s, hs, j, hj⟩
  have hsagg : s ∈ aggregateM cr sellers products records := mem_sortDescBy.mp hs
  obtain ⟨hnodups, hq⟩ := aggregateM_qty cr sellers products records hnd s hsagg
  have htp : rep.top_products = (topProductsM s.products_sold).map
      (fun t => { sku := t.sku, quantity := t.quantity }) := by
    rw [← hproj, hj]
    rfl
  have hrepsid : rep.seller_id = s.seller_id := by
    rw [← hproj, hj]
    rfl
  refine ⟨s, hsagg, hrepsid.symm, aggregateM_keys cr sellers products records hnd s hsagg,
    ?_, fun q => filter_sortDescBy q _, ?_, ?_, ?_⟩
  · rw [htp]
    rfl
  · rw [htp, List.length_map, topProductsM, List.length_take]
    exact min_le_left _ _
  · rw [htp]
    refine List.Pairwise.map _ (fun a b h => h) ?_
    rw [topProductsM]
    exact List.Pairwise.sublist (List.take_sublist _ _) (pairwise_sortDescBy _)
  · intro tp htpmem
    rw [htp] at htpmem
    rcases List.mem_map.mp htpmem with ⟨t, ht, htt⟩
    rw [topProductsM] at ht
    have ht2 := mem_sortDescBy.mp (List.take_subset _ _ ht)
    rcases List.mem_map.mp ht2 with ⟨e, he, hte⟩
    obtain ⟨sku', agg⟩ := e
    rw [← htt]
    dsimp only
    rw [← hte]
    dsimp only
    rw [hrepsid, ← hq sku']
    exact (qtyLookup_of_mem hnodups (mem_jsEntries.mp he)).symm

/-- C7 (amended) witness: the amended top-products properties, evaluated on
the tie-order probe input with array-index SKUs. -/
theorem c7_amended_witness :
    (([exSeller].map Seller.id).Nodup ∧
      analyzeSalesDataM (some c7Data) (some exOptionsM) = .ok [c7Report]) ∧
    (∀ rep ∈ [c7Report],
      ∃ stat ∈ aggregateM calculateSimpleRevenue [exSeller] [c7ProductTen, c7ProductTwo]
        [c7Record],
      stat.seller_id = rep.seller_id ∧
      stat.products_sold.map Prod.fst =
        firstOccur (matchedSkusM [c7ProductTen, c7ProductTwo] [c7Record] stat.seller_id) ∧
      rep.top_products =
        ((sortDescBy (fun t : TopProdM => t.quantity)
          ((jsEntries stat.products_sold).map (fun e =>
            { sku := e.1, name := e.2.name, quantity := e.2.quantity,
              revenue := toFixed2R e.2.revenue, profit := toFixed2R e.2.profit }))).take
          10).map (fun t => { sku := t.sku, quantity := t.quantity }) ∧
      (∀ q : ℚ,
        (sortDescBy (fun t : TopProdM => t.quantity)
          ((jsEntries stat.products_sold).map (fun e =>
            { sku := e.1, name := e.2.name, quantity := e.2.quantity,
              revenue := toFixed2R e.2.revenue, profit := toFixed2R e.2.profit }))).filter
            (fun t => decide (t.quantity = q)) =
          ((jsEntries stat.products_sold).map (fun e =>
            { sku := e.1, name := e.2.name, quantity := e.2.quantity,
              revenue := toFixed2R e.2.revenue, profit := toFixed2R e.2.profit })).filter
            (fun t => decide (t.quantity = q))) ∧
      rep.top_products.length ≤ 10 ∧
      rep.top_products.Pairwise (fun a b => b.quantity ≤ a.quantity) ∧
      (∀ tp ∈ rep.top_products,
        tp.quantity = skuQtyM [c7ProductTen, c7ProductTwo] [c7Record] rep.seller_id tp.sku)) :=
  ⟨⟨by decide, by decide⟩,
    c7_amended_top_products [exSeller] [c7ProductTen, c7ProductTwo] [c7Record]
      calculateSimpleRevenue calculateBonusByProfitM _ (by decide) (by decide)⟩

/-! ### The part_000 string-revenue failure -/

/-- The revenue accumulator has become a string. -/
def isStrRev : RevAcc → Prop
  | .str _ => True
  | .num _ => False

theorem revAccAddStr_isStr (a : RevAcc) (s : String) : isStrRev (revAccAddStr a s) := by
  cases a <;> trivial

theorem processItemP_revenue_isStr_of_match {cr : LineItem → Product → ℚ}
    {ps : List Product} {s : StatP} {it : LineItem}
    (h : (objLookup Product.sku ps it.sku).isSome = true) :
    isStrRev (processItemP cr ps s it).revenue := by
  rcases Option.isSome_iff_exists.mp h with ⟨p, hp⟩
  rw [processItemP, hp]
  exact revAccAddStr_isStr _ _

theorem processItemP_revenue_preserves_isStr {cr : LineItem → Product → ℚ}
    {ps : List Product} {s : StatP} {it : LineItem} (h : isStrRev s.revenue) :
    isStrRev (processItemP cr ps s it).revenue := by
  rw [processItemP]
  cases hl : objLookup Product.sku ps it.sku with
  | none => exact h
  | some p => exact revAccAddStr_isStr _ _

theorem itemfold_isStr_mono {cr : LineItem → Product → ℚ} {ps : List Product} :
    ∀ {items : List LineItem} {s : StatP}, isStrRev s.revenue →
      isStrRev ((items.foldl (processItemP cr ps) s).revenue) := by
  intro items
  induction items with
  | nil => intro s h; exact h
  | cons it rest ih =>
    intro s h
    rw [List.foldl_cons]
    exact ih (processItemP_revenue_preserves_isStr h)

theorem itemfold_isStr_of_match {cr : LineItem → Product → ℚ} {ps : List Product} :
    ∀ {items : List LineItem} {s : StatP},
      (∃ it ∈ items, (objLookup Product.sku ps it.sku).isSome = true) →
      isStrRev ((items.foldl (processItemP cr ps) s).revenue) := by
  intro items
  induction items with
  | nil => intro s h; simp at h
  | cons it rest ih =>
    intro s h
    rw [List.foldl_cons]
    cases hl : (objLookup Product.sku ps it.sku).isSome with
    | true => exact itemfold_isStr_mono (processItemP_revenue_isStr_of_match hl)
    | false =>
      rcases h with ⟨w, hw, hwl⟩
      rcases List.mem_cons.mp hw with rfl | hw2
      · rw [hl] at hwl; exact absurd hwl (by simp)
      · exact ih ⟨w, hw2, hwl⟩

theorem recordBodyP_isStr_of_match {cr : LineItem → Product → ℚ} {ps : List Product}
    {r : PurchaseRecord} {s : StatP}
    (h : ∃ it ∈ r.items, (objLookup Product.sku ps it.sku).isSome = true) :
    isStrRev (recordBodyP cr ps r s).revenue := by
  rw [recordBodyP]
  exact itemfold_isStr_of_match h

theorem recordBodyP_preserves_isStr {cr : LineItem → Product → ℚ} {ps : List Product}
    {r : PurchaseRecord} {s : StatP} (h : isStrRev s.revenue) :
    isStrRev (recordBodyP cr ps r s).revenue := by
  rw [recordBodyP]
  exact itemfold_isStr_mono h

theorem updateFirstIf_exists_estab {α : Type} {p : α → Bool} {f : α → α} {Q : α → Prop}
    (hf : ∀ x, p x = true → Q (f x)) :
    ∀ {l : List α}, (∃ x ∈ l, p x = true) → ∃ y ∈ updateFirstIf p f l, Q y := by
  intro l
  induction l with
  | nil => intro h; simp at h
  | cons x xs ih =>
    intro h
    rw [updateFirstIf]
    cases hp : p x with
    | true =>
      rw [if_pos rfl]
      exact ⟨f x, List.mem_cons_self _ _, hf x hp⟩
    | false =>
      rw [if_neg (by simp)]
      rcases h with ⟨w, hw, hwp⟩
      rcases List.mem_cons.mp hw with rfl | hw2
      · rw [hp] at hwp; exact absurd hwp (by simp)
      · rcases ih ⟨w, hw2, hwp⟩ with ⟨y, hy, hyq⟩
        exact ⟨y, List.mem_cons_of_mem _ hy, hyq⟩

theorem updateFirstIf_exists_mono {α : Type} {p : α → Bool} {f : α → α} {Q : α → Prop}
    (hf : ∀ x, Q x → Q (f x)) :
    ∀ {l : List α}, (∃ x ∈ l, Q x) → ∃ y ∈ updateFirstIf p f l, Q y := by
  intro l
  induction l with
  | nil => intro h; simp at h
  | cons x xs ih =>
    intro h
    rw [updateFirstIf]
    rcases h with ⟨w, hw, hwq⟩
    cases hp : p x with
    | true =>
      rw [if_pos rfl]
      rcases List.mem_cons.mp hw with rfl | hw2
      · exact ⟨f w, List.mem_cons_self _ _, hf w hwq⟩
      · exact ⟨w, List.mem_cons_of_mem _ hw2, hwq⟩
    | false =>
      rw [if_neg (by simp)]
      rcases List.mem_cons.mp hw with rfl | hw2
      · exact ⟨w, List.mem_cons_self _ _, hwq⟩
      · rcases ih ⟨w, hw2, hwq⟩ with ⟨y, hy, hyq⟩
        exact ⟨y, List.mem_cons_of_mem _ hy, hyq⟩

theorem updateLastIf_exists_estab {α : Type} {p : α → Bool} {f : α → α} {Q : α → Prop}
    {l : List α} (hex : ∃ x ∈ l, p x = true) (hf : ∀ x, p x = true → Q (f x)) :
    ∃ y ∈ updateLastIf p f l, Q y := by
  rw [updateLastIf]
  rcases hex with ⟨w, hw, hwp⟩
  rcases updateFirstIf_exists_estab hf ⟨w, List.mem_reverse.mpr hw, hwp⟩ with ⟨y, hy, hyq⟩
  exact ⟨y, List.mem_reverse.mpr hy, hyq⟩

theorem updateLastIf_exists_mono {α : Type} {p : α → Bool} {f : α → α} {Q : α → Prop}
    {l : List α} (hf : ∀ x, Q x → Q (f x)) (hex : ∃ x ∈ l, Q x) :
    ∃ y ∈ updateLastIf p f l, Q y := by
  rw [updateLastIf]
  rcases hex with ⟨w, hw, hwq⟩
  rcases updateFirstIf_exists_mono hf ⟨w, List.mem_reverse.mpr hw, hwq⟩ with ⟨y, hy, hyq⟩
  exact ⟨y, List.mem_reverse.mpr hy, hyq⟩

theorem recfold_exists_str {cr : LineItem → Product → ℚ} {ps : List Product} :
    ∀ {records : List PurchaseRecord} {stats : List StatP},
      (∃ s ∈ stats, isStrRev s.revenue) →
      ∃ s ∈ records.foldl (processRecordP cr ps) stats, isStrRev s.revenue := by
  intro records
  induction records with
  | nil => intro stats h; exact h
  | cons r rest ih =>
    intro stats h
    rw [List.foldl_cons]
    refine ih ?_
    rw [processRecordP]
    exact updateLastIf_exists_mono (fun x hx => recordBodyP_preserves_isStr hx) h

theorem aggregateP_exists_str (cr : LineItem → Product → ℚ) (sellers : List Seller)
    (ps : List Product) (records : List PurchaseRecord) (r0 : PurchaseRecord)
    (hr0 : r0 ∈ records)
    (hseller : ∃ z ∈ sellers, z.id = r0.seller_id)
    (hitem : ∃ it ∈ r0.items, (objLookup Product.sku ps it.sku).isSome = true) :
    ∃ s ∈ aggregateP cr sellers ps records, isStrRev s.revenue := by
  rcases List.append_of_mem hr0 with ⟨l1, l2, rfl⟩
  rw [aggregateP, List.foldl_append, List.foldl_cons]
  have hids : (List.foldl (processRecordP cr ps) (sellers.map mkStatP) l1).map
      StatP.seller_id = sellers.map Seller.id := by
    have h := foldl_key_const (fun stats => stats.map StatP.seller_id)
      (fun stats r => processRecordP_map_seller_id cr ps stats r) l1 (sellers.map mkStatP)
    rw [h, List.map_map]
    rfl
  rcases hseller with ⟨z, hz, hzid⟩
  have hmem : r0.seller_id ∈ (List.foldl (processRecordP cr ps)
      (sellers.map mkStatP) l1).map StatP.seller_id := by
    rw [hids]
    exact hzid ▸ List.mem_map_of_mem Seller.id hz
  rcases List.mem_map.mp hmem with ⟨t, ht, htid⟩
  refine recfold_exists_str ?_
  rw [processRecordP]
  exact updateLastIf_exists_estab ⟨t, ht, by simp [htid]⟩
    (fun x _ => recordBodyP_isStr_of_match hitem)

theorem rankSellersAuxP_exists_str {cb : ℕ → ℕ → StatP → ℚ} {total : ℕ} :
    ∀ {l : List StatP} {i : ℕ}, (∃ s ∈ l, isStrRev s.revenue) →
      ∃ rk ∈ rankSellersAuxP cb total i l, isStrRev rk.revenue := by
  intro l
  induction l with
  | nil => intro i h; simp at h
  | cons s rest ih =>
    intro i h
    rw [rankSellersAuxP]
    rcases h with ⟨w, hw, hwq⟩
    rcases List.mem_cons.mp hw with rfl | hw2
    · exact ⟨rankOneP cb total i w, List.mem_cons_self _ _, hwq⟩
    · rcases ih ⟨w, hw2, hwq⟩ with ⟨rk, hrk, hrkq⟩
      exact ⟨rk, List.mem_cons_of_mem _ hrk, hrkq⟩

theorem mapExcept_error_of_exists_str :
    ∀ {l : List RankedP}, (∃ rk ∈ l, isStrRev rk.revenue) →
      mapExcept projectP l = .error .typeError := by
  intro l
  induction l with
  | nil => intro h; simp at h
  | cons r rest ih =>
    intro h
    rw [mapExcept]
    cases hrev : r.revenue with
    | str s => rw [show projectP r = .error .typeError from by rw [projectP, hrev]]
    | num q =>
      have hok : ∃ y, projectP r = .ok y := ⟨_, by rw [projectP, hrev]⟩
      rcases hok with ⟨y, hy⟩
      rw [hy]
      rcases h with ⟨w, hw, hwq⟩
      rcases List.mem_cons.mp hw with rfl | hw2
      · rw [hrev] at hwq; exact absurd hwq (fun hq => hq)
      · rw [ih ⟨w, hw2, hwq⟩]

/-- C10: whenever a valid input contains a purchase record whose seller is
known and which carries at least one line item whose SKU resolves, part_000
does not return a report: `seller.revenue += revenue.toFixed(2)` turns the
revenue accumulator into a string, and the final `+seller.revenue.toFixed(2)`
projection fails with a `TypeError`. -/
theorem c10_part0_string_revenue_typeerror
    (sellers : List Seller) (products : List Product) (records : List PurchaseRecord)
    (cr : LineItem → Product → ℚ) (cb : ℕ → ℕ → StatP → ℚ) (r0 : PurchaseRecord)
    (hr0 : r0 ∈ records)
    (hseller : ∃ z ∈ sellers, z.id = r0.seller_id)
    (hitem : ∃ it ∈ r0.items, (objLookup Product.sku products it.sku).isSome = true) :
    analyzeSalesDataP (some ⟨some sellers, some products, some records⟩)
      (some ⟨some cr, some cb⟩) = .error .typeError := by
  have hs : sellers ≠ [] := by
    rcases hseller with ⟨z, hz, _⟩
    exact List.ne_nil_of_mem hz
  have hp : products ≠ [] := by
    rcases hitem with ⟨it, _, hsome⟩
    rcases objLookup_isSome_iff.mp hsome with ⟨x, hx, _⟩
    exact List.ne_nil_of_mem hx
  have hr : records ≠ [] := List.ne_nil_of_mem hr0
  rw [analyzeSalesDataP_eval hs hp hr, analyzeCoreP]
  refine mapExcept_error_of_exists_str ?_
  rw [rankSellersP]
  refine rankSellersAuxP_exists_str ?_
  rcases aggregateP_exists_str cr sellers products records r0 hr0 hseller hitem with
    ⟨s, hsmem, hsq⟩
  exact ⟨s, mem_sortDescBy.mpr hsmem, hsq⟩

/-- C10 witness: on the specification's worked example, part_000 fails with
the `TypeError` (the matched record is the example's only record). -/
theorem c10_part0_typeerror_witness :
    (exRecord ∈ [exRecord] ∧
      (∃ z ∈ [exSeller], z.id = exRecord.seller_id) ∧
      (∃ it ∈ exRecord.items, (objLookup Product.sku [exProduct] it.sku).isSome = true)) ∧
    analyzeSalesDataP (some ⟨some [exSeller], some [exProduct], some [exRecord]⟩)
      (some ⟨some calculateSimpleRevenue, some calculateBonusByProfitP⟩) =
        .error .typeError :=
  ⟨⟨by decide, by decide, by decide⟩,
    c10_part0_string_revenue_typeerror [exSeller] [exProduct] [exRecord]
      calculateSimpleRevenue calculateBonusByProfitP exRecord
      (by decide) (by decide) (by decide)⟩

end SalesBonus
